import Mathlib

/-!
# Background changer: scene model and pointer gesture state machine

A shallow embedding of `script.js`.  The script keeps its scene in module-level
variables and mutates them from DOM event handlers; here the variables are the
fields of `State` and every handler is a function from the state before the
event to the state after it.

JavaScript numbers are modelled by rationals: `Math.max`, `Math.min`, `+`,
`-`, `*`, `/` are the exact operations of `ℚ`, `0.8` is `4/5` and `0.2` is
`1/5`.  The script itself computes in IEEE doubles; the rounding of doubles
and the two computations in which it is visible (`fgImgOnloadDouble`,
`pointermoveDouble`) are in the section on IEEE double arithmetic, and the
statements that hold only of the exact operations say so.  Intrinsic image
dimensions and canvas dimensions are integers, as in the DOM.  Pointer capture
(`setPointerCapture`, `releasePointerCapture`) only changes how the host
routes later events and writes no script variable, so it does not appear in
the state.
-/

namespace BackgroundChanger

/-! ## Data model -/

/-- An `Image` element, as far as the script reads it: its source, whether it
has finished decoding, and its intrinsic width and height. -/
structure Img where
  src : String
  complete : Bool
  width : ℕ
  height : ℕ
deriving DecidableEq, Repr

/-- The value of `new Image()`: no source, intrinsic size zero. -/
def newImage : Img :=
  { src := "", complete := true, width := 0, height := 0 }

/-- The shape of `fgPos` and `dragOffset`. -/
structure Point where
  x : ℚ
  y : ℚ
deriving DecidableEq, Repr

/-- The shape of `fgSize`. -/
structure Size where
  width : ℚ
  height : ℚ
deriving DecidableEq, Repr

/-- The module-level variables of the script together with the three DOM
properties it writes: the canvas dimensions, the value of the colour input
and the `display` style of the unlock button. -/
structure State where
  fgImg : Img
  bgImg : Img
  fgPos : Point
  fgSize : Size
  dragging : Bool
  resizing : Bool
  dragOffset : Point
  isFinalized : Bool
  canvasWidth : ℤ
  canvasHeight : ℤ
  bgColor : String
  unlockBtnDisplay : String
deriving DecidableEq, Repr

/-- What the HTML page supplies before the script runs: the initial canvas
dimensions, colour value and unlock button style. -/
structure Page where
  canvasWidth : ℤ
  canvasHeight : ℤ
  bgColor : String
  unlockBtnDisplay : String
deriving DecidableEq, Repr

/-- The state right after the script has been evaluated (lines 22-37). -/
def startup (p : Page) : State :=
  { fgImg := newImage
    bgImg := newImage
    fgPos := { x := 60, y := 60 }
    fgSize := { width := 200, height := 200 }
    dragging := false
    resizing := false
    dragOffset := { x := 0, y := 0 }
    isFinalized := false
    canvasWidth := p.canvasWidth
    canvasHeight := p.canvasHeight
    bgColor := p.bgColor
    unlockBtnDisplay := p.unlockBtnDisplay }

/-- The constant `resizeHandleSize`. -/
def resizeHandleSize : ℚ := 16

/-- The fields of a pointer event that the handlers read. -/
structure PointerEvent where
  button : ℤ
  clientX : ℚ
  clientY : ℚ
deriving DecidableEq, Repr

/-- The fields of `canvas.getBoundingClientRect()` that the handlers read. -/
structure Rect where
  left : ℚ
  top : ℚ
deriving DecidableEq, Repr

/-! ## Helpers -/

/-- The function `Math.round`: the nearest integer, ties towards plus
infinity. -/
def mathRound (v : ℚ) : ℤ := ⌊v + 1 / 2⌋

/-- Assignment of the integer `v` to `canvas.width` or `canvas.height`, an
unsigned long attribute of the DOM whose default is `dflt`: the value is
reduced modulo `2^32` and kept when it is at most 2147483647; otherwise the
attribute takes its default. -/
def setCanvasDimension (dflt v : ℤ) : ℤ :=
  if v % 4294967296 ≤ 2147483647 then v % 4294967296 else dflt

/-- The function `resetCanvasSize(width, height)`; the defaults of
`canvas.width` and `canvas.height` are 300 and 150. -/
def resetCanvasSize (s : State) (width height : ℚ) : State :=
  { s with
    canvasWidth := setCanvasDimension 300 (max 300 (mathRound width))
    canvasHeight := setCanvasDimension 150 (max 200 (mathRound height)) }

/-! ## Upload, remove and background handlers -/

/-- The assignment `fgImg = new Image(); ...; fgImg.src = bgRemovedImageURL`
of the `removeBtn` click handler (lines 130-142): the slot holds a fresh image
that has a source and is still decoding. -/
def assignFgImg (s : State) (url : String) : State :=
  { s with fgImg := { src := url, complete := false, width := 0, height := 0 } }

/-- The callback `fgImg.onload` (lines 131-141), run when the image in the
foreground slot has finished decoding with intrinsic size `w` by `h`, in exact
arithmetic (`fgImgOnloadDouble` has the doubles).  For `w = 0` the script
divides zero by zero and stores NaN, which the rationals do not have:
statements about the size and the canvas after a load take `0 < w`. -/
def fgImgOnload (s : State) (w h : ℕ) : State :=
  let img : Img := { s.fgImg with complete := true, width := w, height := h }
  let maxW : ℚ := min 800 (img.width : ℚ)
  let scale : ℚ := min 1 (maxW / (img.width : ℚ))
  let fgSize : Size :=
    { width := (img.width : ℚ) * scale, height := (img.height : ℚ) * scale }
  let s1 : State :=
    { s with fgImg := img, fgSize := fgSize, fgPos := { x := 40, y := 40 } }
  let s2 := resetCanvasSize s1 (fgSize.width + 120) (fgSize.height + 120)
  { s2 with isFinalized := false, unlockBtnDisplay := "none" }

/-- The callback `reader.onload` of the `bgImageUpload` change handler
(lines 157-165): the background slot holds a fresh image that has a source and
is still decoding. -/
def assignBgImg (s : State) (url : String) : State :=
  { s with bgImg := { src := url, complete := false, width := 0, height := 0 } }

/-- The callback `bgImg.onload` (lines 159-163), run when the image in the
background slot has finished decoding with intrinsic size `w` by `h`. -/
def bgImgOnload (s : State) (w h : ℕ) : State :=
  let img : Img := { s.bgImg with complete := true, width := w, height := h }
  let s1 : State := { s with bgImg := img }
  let s2 := resetCanvasSize s1 (min (img.width : ℚ) 1200) (min (img.height : ℚ) 800)
  { s2 with isFinalized := false, unlockBtnDisplay := "none" }

/-- The click handler of `removeBgImageBtn` (lines 170-180).  The second
component is the text of the alert, if one is shown.  The closing call of
`drawCanvas` paints and writes no variable. -/
def removeBgImageClick (s : State) : State × Option String :=
  if s.bgImg.src = "" then
    (s, some "No background image to remove.")
  else
    let s1 : State := { s with bgImg := newImage }
    let s2 := resetCanvasSize s1 (s1.fgSize.width + 120) (s1.fgSize.height + 120)
    ({ s2 with isFinalized := false, unlockBtnDisplay := "none" }, none)

/-- The input handler of `bgColorInput` (lines 182-185); `v` is the new value
of the colour input. -/
def bgColorInputHandler (s : State) (v : String) : State :=
  { s with bgColor := v, isFinalized := false, unlockBtnDisplay := "none" }

/-! ## Pointer handlers -/

/-- The `pointerdown` listener of the canvas (lines 188-218). -/
def pointerdown (s : State) (rect : Rect) (e : PointerEvent) : State :=
  if s.isFinalized then s
  else if e.button ≠ 0 ∧ e.button ≠ 0 then s
  else
    let x := e.clientX - rect.left
    let y := e.clientY - rect.top
    let handleX := s.fgPos.x + s.fgSize.width - resizeHandleSize
    let handleY := s.fgPos.y + s.fgSize.height - resizeHandleSize
    if x ≥ handleX ∧ x ≤ handleX + resizeHandleSize ∧
        y ≥ handleY ∧ y ≤ handleY + resizeHandleSize then
      { s with resizing := true }
    else if x ≥ s.fgPos.x ∧ x ≤ s.fgPos.x + s.fgSize.width ∧
        y ≥ s.fgPos.y ∧ y ≤ s.fgPos.y + s.fgSize.height then
      { s with
        dragging := true
        dragOffset := { x := x - s.fgPos.x, y := y - s.fgPos.y } }
    else s

/-- The `pointermove` listener of the canvas (lines 220-250), in exact
arithmetic (`pointermoveDouble` has the doubles). -/
def pointermove (s : State) (rect : Rect) (e : PointerEvent) : State :=
  if s.isFinalized then s
  else if !s.dragging && !s.resizing then s
  else
    let x := e.clientX - rect.left
    let y := e.clientY - rect.top
    if s.dragging then
      let px := x - s.dragOffset.x
      let py := y - s.dragOffset.y
      { s with
        fgPos :=
          { x := max (-s.fgSize.width * (4 / 5))
              (min px ((s.canvasWidth : ℚ) - s.fgSize.width * (1 / 5)))
            y := max (-s.fgSize.height * (4 / 5))
              (min py ((s.canvasHeight : ℚ) - s.fgSize.height * (1 / 5))) } }
    else if s.resizing then
      let newW : ℚ := max 40 (x - s.fgPos.x)
      let newH : ℚ := max 40 (y - s.fgPos.y)
      if s.fgImg.width ≠ 0 ∧ s.fgImg.height ≠ 0 then
        let aspect : ℚ := (s.fgImg.width : ℚ) / (s.fgImg.height : ℚ)
        if newW / newH > aspect then
          { s with fgSize := { width := newH * aspect, height := newH } }
        else
          { s with fgSize := { width := newW, height := newW / aspect } }
      else
        { s with fgSize := { width := newW, height := newH } }
    else s

/-- The function `releasePointer` (lines 252-260). -/
def releasePointer (s : State) (_e : PointerEvent) : State :=
  if s.dragging || s.resizing then
    { s with dragging := false, resizing := false }
  else s

/-- A `pointerup` event.  The function `releasePointer` listens on the canvas
and on the window (lines 262-263): an event whose target is the canvas runs it
on the canvas and again when it bubbles to the window, any other runs it on
the window only. -/
def pointerup (s : State) (e : PointerEvent) (onCanvas : Bool) : State :=
  let s1 := if onCanvas then releasePointer s e else s
  releasePointer s1 e

/-! ## Freeze and unlock -/

/-- The click handler of `applyBgBtn` (lines 266-276).  The second component
is the text of the alert it shows.  The snapshot written to `preview.src` is
pixel data and is not part of the state. -/
def applyBgClick (s : State) : State × String :=
  if s.fgImg.src = "" then
    (s, "Remove background first (or load a foreground).")
  else
    ({ s with isFinalized := true, unlockBtnDisplay := "inline-block" },
      "Background applied & position finalized — editing locked. Click Unlock to edit again.")

/-- The click handler of `unlockBtn` (lines 278-281). -/
def unlockClick (s : State) : State :=
  { s with isFinalized := false, unlockBtnDisplay := "none" }

/-! ## Interaction mode

The script has no mode variable: the mode of the specification is read off the
two flags `dragging` and `resizing`. -/

/-- Mode Idle: neither flag is set. -/
def isIdle (s : State) : Bool := !s.dragging && !s.resizing

/-- Mode Dragging: `dragging` is set and `resizing` is not. -/
def isDragging (s : State) : Bool := s.dragging && !s.resizing

/-- Mode Resizing: `resizing` is set and `dragging` is not. -/
def isResizing (s : State) : Bool := s.resizing && !s.dragging

/-! ## Event sequences -/

/-- The events that reach the scene model. -/
inductive Event where
  | pointerdown (rect : Rect) (e : PointerEvent)
  | pointermove (rect : Rect) (e : PointerEvent)
  | pointerup (e : PointerEvent) (onCanvas : Bool)
  | applyBg
  | unlock
  | assignFg (url : String)
  | fgLoaded (w h : ℕ)
  | assignBg (url : String)
  | bgLoaded (w h : ℕ)
  | removeBgImage
  | bgColor (v : String)
deriving DecidableEq, Repr

/-- One event handled by its listener. -/
def step (s : State) : Event → State
  | .pointerdown rect e => pointerdown s rect e
  | .pointermove rect e => pointermove s rect e
  | .pointerup e onCanvas => pointerup s e onCanvas
  | .applyBg => (applyBgClick s).1
  | .unlock => unlockClick s
  | .assignFg url => assignFgImg s url
  | .fgLoaded w h => fgImgOnload s w h
  | .assignBg url => assignBgImg s url
  | .bgLoaded w h => bgImgOnload s w h
  | .removeBgImage => (removeBgImageClick s).1
  | .bgColor v => bgColorInputHandler s v

/-- A sequence of events handled in order. -/
def run (s : State) (evs : List Event) : State := evs.foldl step s

/-- Whether every pointer-down of the sequence arrives while no gesture is
in progress, when the sequence is handled from state `s`. -/
def pointerDownsWhenIdle (s : State) : List Event → Bool
  | [] => true
  | .pointerdown rect e :: rest =>
    isIdle s && pointerDownsWhenIdle (step s (.pointerdown rect e)) rest
  | ev :: rest => pointerDownsWhenIdle (step s ev) rest

/-- A sequence of pointer-moves handled in order. -/
def moves (s : State) (ms : List (Rect × PointerEvent)) : State :=
  ms.foldl (fun st m => pointermove st m.1 m.2) s

/-! ## Sample inputs -/

/-- A page with a canvas of 300 by 150, a white colour value and a hidden
unlock button. -/
def samplePage : Page :=
  { canvasWidth := 300, canvasHeight := 150, bgColor := "#ffffff", unlockBtnDisplay := "none" }

/-- A canvas whose top-left corner is the top-left corner of the viewport. -/
def originRect : Rect := { left := 0, top := 0 }

/-- A primary-button pointer event at client position `(cx, cy)`. -/
def primaryAt (cx cy : ℚ) : PointerEvent := { button := 0, clientX := cx, clientY := cy }

/-- A scene reached from startup: a 400 by 200 foreground has loaded and the
pointer has gone down on the resize handle. -/
def wideScene : State :=
  run (startup samplePage)
    [.assignFg "blob:fg", .fgLoaded 400 200, .pointerdown originRect (primaryAt 430 230)]

/-- A scene reached from startup: a 400 by 200 foreground has loaded and the
pointer has gone down on its body. -/
def draggingScene : State :=
  run (startup samplePage)
    [.assignFg "blob:fg", .fgLoaded 400 200, .pointerdown originRect (primaryAt 100 100)]

/-- A scene reached from startup: a 400 by 200 foreground has loaded and the
scene has been finalized; there is no background image. -/
def lockedScene : State :=
  run (startup samplePage) [.assignFg "blob:fg", .fgLoaded 400 200, .applyBg]

/-- A scene reached from startup: a foreground and a 1000 by 600 background
have loaded and the scene has been finalized. -/
def lockedSceneWithBg : State :=
  run (startup samplePage)
    [.assignFg "blob:fg", .fgLoaded 400 200, .assignBg "data:bg", .bgLoaded 1000 600, .applyBg]

/-- Two pointers: one goes down on the body of the startup foreground, then a
second goes down on its resize handle before the first is released. -/
def twoPointerDowns : List Event :=
  [.pointerdown originRect (primaryAt 100 100), .pointerdown originRect (primaryAt 250 250)]

/-- One pointer: a drag of the startup foreground, its release, then a
pointer-down on the resize handle. -/
def onePointerGesture : List Event :=
  [.pointerdown originRect (primaryAt 100 100), .pointermove originRect (primaryAt 150 120),
    .pointerup (primaryAt 150 120) true, .pointerdown originRect (primaryAt 250 250)]

/-- A scene reached from startup: a 200 by 200 foreground has loaded and has
been dragged to `(100, 100)` and released, so the foreground is
`{x: 100, y: 100, w: 200, h: 200}` with aspect 1, unlocked and Idle. -/
def squareScene : State :=
  run (startup samplePage)
    [.assignFg "blob:fg", .fgLoaded 200 200, .pointerdown originRect (primaryAt 50 50),
      .pointermove originRect (primaryAt 110 110), .pointerup (primaryAt 110 110) true]

/-- A `lostpointercapture` or `pointercancel` event.  The script registers
`releasePointer` for `pointerup` on the canvas and on the window
(lines 262-263) and registers no listener for either of these two events, so
no script code runs and no variable is written. -/
def captureLost (s : State) (_e : PointerEvent) : State := s

/-- Whether an event is not a foreground load, or is a foreground load of an
image with positive intrinsic width and height. -/
def loadIsPositive : Event → Bool
  | .fgLoaded w h => decide (0 < w) && decide (0 < h)
  | _ => true

/-- Whether an event is a pointer-down, a pointer-move or a pointer-up. -/
def isPointerEvent : Event → Bool
  | .pointerdown _ _ => true
  | .pointermove _ _ => true
  | .pointerup _ _ => true
  | _ => false

/-- Whether a pointer-move on state `s` is handled by the resize branch of
the `pointermove` listener (lines 233-249). -/
def resizeBranch (s : State) : Bool := !s.isFinalized && !s.dragging && s.resizing

/-- Whether no pointer-move of the sequence is handled by the resize branch,
when the sequence is handled from state `s`. -/
def noResizeMove (s : State) : List Event → Bool
  | [] => true
  | .pointermove rect e :: rest =>
    !resizeBranch s && noResizeMove (step s (.pointermove rect e)) rest
  | ev :: rest => noResizeMove (step s ev) rest

/-- A resize of the startup foreground: pointer-down on the handle, then a
pointer-move to `(1500, 1000)`. -/
def bigResize : List Event :=
  [.pointerdown originRect (primaryAt 250 250), .pointermove originRect (primaryAt 1500 1000)]

/-- A session: a 1600 by 1200 image loads, is resized from its handle and
released, and the scene is finalized. -/
def loadResizeFinalize : List Event :=
  [.assignFg "blob:fg", .fgLoaded 1600 1200, .pointerdown originRect (primaryAt 830 630),
    .pointermove originRect (primaryAt 100 100), .pointerup (primaryAt 100 100) true, .applyBg]

/-- A drag of the startup foreground far to the right and below, then its
release. -/
def farDrag : List Event :=
  [.pointerdown originRect (primaryAt 100 100), .pointermove originRect (primaryAt 5000 7000),
    .pointerup (primaryAt 5000 7000) false]

/-! ## Compositor -/

/-- The calls and assignments that `drawCanvas` makes on the 2D context. -/
inductive DrawCmd where
  | clearRect (x y w h : ℚ)
  | drawImage (img : Img) (x y w h : ℚ)
  | fillStyle (v : String)
  | fillRect (x y w h : ℚ)
  | strokeStyle (v : String)
  | lineWidth (v : ℚ)
  | strokeRect (x y w h : ℚ)
deriving DecidableEq, Repr

/-- The function `drawCanvas` (lines 45-80), as the ordered list of what it
does to the 2D context. -/
def drawCanvas (s : State) : List DrawCmd :=
  [DrawCmd.clearRect 0 0 s.canvasWidth s.canvasHeight] ++
  (if s.bgImg.src ≠ "" ∧ s.bgImg.complete = true then
    [DrawCmd.drawImage s.bgImg 0 0 s.canvasWidth s.canvasHeight]
  else
    [DrawCmd.fillStyle (if s.bgColor ≠ "" then s.bgColor else "#ffffff"),
      DrawCmd.fillRect 0 0 s.canvasWidth s.canvasHeight]) ++
  (if s.fgImg.src ≠ "" ∧ s.fgImg.complete = true then
    [DrawCmd.drawImage s.fgImg s.fgPos.x s.fgPos.y s.fgSize.width s.fgSize.height] ++
    (if !s.isFinalized then
      [DrawCmd.fillStyle "#007bff",
        DrawCmd.fillRect (s.fgPos.x + s.fgSize.width - resizeHandleSize)
          (s.fgPos.y + s.fgSize.height - resizeHandleSize) resizeHandleSize resizeHandleSize,
        DrawCmd.strokeStyle "#ffffff",
        DrawCmd.lineWidth 2,
        DrawCmd.strokeRect (s.fgPos.x + s.fgSize.width - resizeHandleSize)
          (s.fgPos.y + s.fgSize.height - resizeHandleSize) resizeHandleSize resizeHandleSize]
    else [])
  else
    [DrawCmd.fillStyle "rgba(0,0,0,0.06)",
      DrawCmd.fillRect 0 0 s.canvasWidth s.canvasHeight])

/-! ## IEEE double arithmetic

The handlers above compute in exact rationals.  The script computes in IEEE
754 doubles: each `+`, `-`, `*`, `/` returns the double nearest to the exact
result, ties going to the even significand.  This section has that rounding
for values in the normal range of doubles (no overflow, no subnormal, no NaN)
and the two computations of the script in which it is visible, the load
callback and the `pointermove` listener. -/

/-- The integer nearest to a rational, ties going to the even integer. -/
def roundHalfEven (q : ℚ) : ℤ :=
  if q - ⌊q⌋ < 1 / 2 then ⌊q⌋
  else if 1 / 2 < q - ⌊q⌋ then ⌊q⌋ + 1
  else if ⌊q⌋ % 2 = 0 then ⌊q⌋
  else ⌊q⌋ + 1

/-- The double nearest to a rational in the normal range: a 53-bit
significand times a power of two, ties going to the even significand. -/
def toDouble (q : ℚ) : ℚ :=
  if q = 0 then 0
  else
    (roundHalfEven (q / (2 : ℚ) ^ (Int.log 2 |q| - 52)) : ℚ) *
      (2 : ℚ) ^ (Int.log 2 |q| - 52)

/-- The callback `fgImg.onload` (lines 131-141) in double arithmetic, for an
image of positive intrinsic width (for width zero the script divides zero by
zero). -/
def fgImgOnloadDouble (s : State) (w h : ℕ) : State :=
  let img : Img := { s.fgImg with complete := true, width := w, height := h }
  let maxW : ℚ := min 800 (img.width : ℚ)
  let scale : ℚ := min 1 (toDouble (maxW / (img.width : ℚ)))
  let fgSize : Size :=
    { width := toDouble ((img.width : ℚ) * scale)
      height := toDouble ((img.height : ℚ) * scale) }
  let s1 : State :=
    { s with fgImg := img, fgSize := fgSize, fgPos := { x := 40, y := 40 } }
  let s2 := resetCanvasSize s1 (toDouble (fgSize.width + 120)) (toDouble (fgSize.height + 120))
  { s2 with isFinalized := false, unlockBtnDisplay := "none" }

/-- The `pointermove` listener of the canvas (lines 220-250) in double
arithmetic; the literals `0.8` and `0.2` are the doubles nearest to `4/5` and
`1/5`. -/
def pointermoveDouble (s : State) (rect : Rect) (e : PointerEvent) : State :=
  if s.isFinalized then s
  else if !s.dragging && !s.resizing then s
  else
    let x := toDouble (e.clientX - rect.left)
    let y := toDouble (e.clientY - rect.top)
    if s.dragging then
      let px := toDouble (x - s.dragOffset.x)
      let py := toDouble (y - s.dragOffset.y)
      { s with
        fgPos :=
          { x := max (toDouble (-s.fgSize.width * toDouble (4 / 5)))
              (min px (toDouble ((s.canvasWidth : ℚ) -
                toDouble (s.fgSize.width * toDouble (1 / 5)))))
            y := max (toDouble (-s.fgSize.height * toDouble (4 / 5)))
              (min py (toDouble ((s.canvasHeight : ℚ) -
                toDouble (s.fgSize.height * toDouble (1 / 5))))) } }
    else if s.resizing then
      let newW : ℚ := max 40 (toDouble (x - s.fgPos.x))
      let newH : ℚ := max 40 (toDouble (y - s.fgPos.y))
      if s.fgImg.width ≠ 0 ∧ s.fgImg.height ≠ 0 then
        let aspect : ℚ := toDouble ((s.fgImg.width : ℚ) / (s.fgImg.height : ℚ))
        if toDouble (newW / newH) > aspect then
          { s with fgSize := { width := toDouble (newH * aspect), height := newH } }
        else
          { s with fgSize := { width := newW, height := toDouble (newW / aspect) } }
      else
        { s with fgSize := { width := newW, height := newH } }
    else s

/-- A scene reached from startup: a 100 by 199 foreground has loaded and the
pointer has gone down on the resize handle. -/
def tallScene : State :=
  run (startup samplePage)
    [.assignFg "blob:fg", .fgLoaded 100 199, .pointerdown originRect (primaryAt 130 230)]

/-! ## Pointer-down classification -/

/-- The listener `pointerdown` on an unlocked scene and a primary button, with
the constant `resizeHandleSize` unfolded. -/
theorem pointerdown_unlocked (s : State) (rect : Rect) (e : PointerEvent)
    (hlock : s.isFinalized = false) (hbtn : e.button = 0) :
    pointerdown s rect e =
      if s.fgPos.x + s.fgSize.width - 16 ≤ e.clientX - rect.left ∧
          e.clientX - rect.left ≤ s.fgPos.x + s.fgSize.width ∧
          s.fgPos.y + s.fgSize.height - 16 ≤ e.clientY - rect.top ∧
          e.clientY - rect.top ≤ s.fgPos.y + s.fgSize.height then
        { s with resizing := true }
      else if s.fgPos.x ≤ e.clientX - rect.left ∧
          e.clientX - rect.left ≤ s.fgPos.x + s.fgSize.width ∧
          s.fgPos.y ≤ e.clientY - rect.top ∧
          e.clientY - rect.top ≤ s.fgPos.y + s.fgSize.height then
        { s with
          dragging := true
          dragOffset :=
            { x := e.clientX - rect.left - s.fgPos.x, y := e.clientY - rect.top - s.fgPos.y } }
      else s := by
  simp only [pointerdown, hlock, hbtn, resizeHandleSize, sub_add_cancel, ge_iff_le]
  simp

/-- C1: on an unlocked Idle scene, a primary-button pointer-down at
surface-local `(x, y)` strictly inside the handle square gives mode Resizing;
inside the foreground rectangle but outside the handle square it gives mode
Dragging with drag offset `(x - fx, y - fy)`; outside both it leaves the mode
Idle (the state is unchanged).  In all cases the foreground position and size
are unchanged. -/
theorem pointerdown_classifies (s : State) (rect : Rect) (e : PointerEvent) (x y : ℚ)
    (hx : x = e.clientX - rect.left) (hy : y = e.clientY - rect.top)
    (hlock : s.isFinalized = false) (hidle : isIdle s = true) (hbtn : e.button = 0) :
    ((s.fgPos.x + s.fgSize.width - 16 < x ∧ x < s.fgPos.x + s.fgSize.width ∧
        s.fgPos.y + s.fgSize.height - 16 < y ∧ y < s.fgPos.y + s.fgSize.height) →
      isResizing (pointerdown s rect e) = true) ∧
    (((s.fgPos.x ≤ x ∧ x ≤ s.fgPos.x + s.fgSize.width ∧
          s.fgPos.y ≤ y ∧ y ≤ s.fgPos.y + s.fgSize.height) ∧
        ¬ (s.fgPos.x + s.fgSize.width - 16 ≤ x ∧ x ≤ s.fgPos.x + s.fgSize.width ∧
          s.fgPos.y + s.fgSize.height - 16 ≤ y ∧ y ≤ s.fgPos.y + s.fgSize.height)) →
      isDragging (pointerdown s rect e) = true ∧
        (pointerdown s rect e).dragOffset = { x := x - s.fgPos.x, y := y - s.fgPos.y }) ∧
    ((¬ (s.fgPos.x ≤ x ∧ x ≤ s.fgPos.x + s.fgSize.width ∧
          s.fgPos.y ≤ y ∧ y ≤ s.fgPos.y + s.fgSize.height) ∧
        ¬ (s.fgPos.x + s.fgSize.width - 16 ≤ x ∧ x ≤ s.fgPos.x + s.fgSize.width ∧
          s.fgPos.y + s.fgSize.height - 16 ≤ y ∧ y ≤ s.fgPos.y + s.fgSize.height)) →
      isIdle (pointerdown s rect e) = true ∧ pointerdown s rect e = s) ∧
    (pointerdown s rect e).fgPos = s.fgPos ∧ (pointerdown s rect e).fgSize = s.fgSize := by
  subst hx hy
  have hd : s.dragging = false := by
    simp only [isIdle, Bool.and_eq_true, Bool.not_eq_true'] at hidle
    exact hidle.1
  have hr : s.resizing = false := by
    simp only [isIdle, Bool.and_eq_true, Bool.not_eq_true'] at hidle
    exact hidle.2
  rw [pointerdown_unlocked s rect e hlock hbtn]
  refine ⟨?_, ?_, ?_, ?_, ?_⟩
  · rintro ⟨h1, h2, h3, h4⟩
    rw [if_pos ⟨h1.le, h2.le, h3.le, h4.le⟩]
    simp [isResizing, hd]
  · rintro ⟨hbody, hnot⟩
    rw [if_neg hnot, if_pos hbody]
    simp [isDragging, hr]
  · rintro ⟨hbody, hnot⟩
    rw [if_neg hnot, if_neg hbody]
    exact ⟨hidle, rfl⟩
  · split_ifs <;> rfl
  · split_ifs <;> rfl

/-- Witness for C1: the three regions on the startup scene. -/
theorem pointerdown_classifies_witness :
    isResizing (pointerdown (startup samplePage) originRect (primaryAt 250 250)) = true ∧
    (isDragging (pointerdown (startup samplePage) originRect (primaryAt 100 100)) = true ∧
      (pointerdown (startup samplePage) originRect (primaryAt 100 100)).dragOffset =
        { x := 40, y := 40 }) ∧
    isIdle (pointerdown (startup samplePage) originRect (primaryAt 10 10)) = true := by
  have h1 := pointerdown_classifies (startup samplePage) originRect (primaryAt 250 250) 250 250
    (by norm_num [originRect, primaryAt]) (by norm_num [originRect, primaryAt]) rfl rfl rfl
  have h2 := pointerdown_classifies (startup samplePage) originRect (primaryAt 100 100) 100 100
    (by norm_num [originRect, primaryAt]) (by norm_num [originRect, primaryAt]) rfl rfl rfl
  have h3 := pointerdown_classifies (startup samplePage) originRect (primaryAt 10 10) 10 10
    (by norm_num [originRect, primaryAt]) (by norm_num [originRect, primaryAt]) rfl rfl rfl
  refine ⟨h1.1 (by norm_num [startup]), ?_, (h3.2.2.1 (by norm_num [startup])).1⟩
  have := h2.2.1 (by norm_num [startup])
  norm_num [startup] at this
  exact this

/-! ## Dragging -/

/-- One pointer-move of a drag: only `fgPos` is written. -/
theorem pointermove_dragging (s : State) (rect : Rect) (e : PointerEvent)
    (hdrag : s.dragging = true) (hlock : s.isFinalized = false) :
    pointermove s rect e =
      { s with
        fgPos :=
          { x := max (-s.fgSize.width * (4 / 5))
              (min (e.clientX - rect.left - s.dragOffset.x)
                ((s.canvasWidth : ℚ) - s.fgSize.width * (1 / 5)))
            y := max (-s.fgSize.height * (4 / 5))
              (min (e.clientY - rect.top - s.dragOffset.y)
                ((s.canvasHeight : ℚ) - s.fgSize.height * (1 / 5))) } } := by
  simp [pointermove, hdrag, hlock]

/-- A run of pointer-moves of a drag keeps the flags, the lock, the size and the
canvas dimensions. -/
theorem moves_dragging_frame (ms : List (Rect × PointerEvent)) (s : State)
    (hdrag : s.dragging = true) (hlock : s.isFinalized = false) :
    (moves s ms).dragging = true ∧ (moves s ms).isFinalized = false ∧
      (moves s ms).fgSize = s.fgSize ∧ (moves s ms).canvasWidth = s.canvasWidth ∧
      (moves s ms).canvasHeight = s.canvasHeight := by
  induction ms generalizing s with
  | nil => exact ⟨hdrag, hlock, rfl, rfl, rfl⟩
  | cons m rest ih =>
    have hstep := pointermove_dragging s m.1 m.2 hdrag hlock
    have h := ih (pointermove s m.1 m.2) (by rw [hstep]; exact hdrag) (by rw [hstep]; exact hlock)
    simp only [moves, List.foldl_cons] at h ⊢
    rw [hstep] at h ⊢
    exact h

/-- A clamp `max lo (min v hi)` lands in `[lo, hi]` when `lo ≤ hi`. -/
theorem clamp_bounds (lo hi v : ℚ) (h : lo ≤ hi) :
    lo ≤ max lo (min v hi) ∧ max lo (min v hi) ≤ hi :=
  ⟨le_max_left _ _, max_le h (min_le_right _ _)⟩

/-- C2: in a state with `dragging` set and unlocked, with foreground width and
height positive and canvas dimensions non-negative, after every non-empty run
of pointer-moves (at any positions) the foreground origin satisfies
`-0.8 w ≤ x ≤ surfaceW - 0.2 w` and `-0.8 h ≤ y ≤ surfaceH - 0.2 h`. -/
theorem drag_keeps_origin_clamped (s : State) (ms : List (Rect × PointerEvent))
    (hdrag : s.dragging = true) (hlock : s.isFinalized = false)
    (hw : 0 < s.fgSize.width) (hh : 0 < s.fgSize.height)
    (hcw : 0 ≤ s.canvasWidth) (hch : 0 ≤ s.canvasHeight) (hne : ms ≠ []) :
    -(4 / 5) * s.fgSize.width ≤ (moves s ms).fgPos.x ∧
    (moves s ms).fgPos.x ≤ (s.canvasWidth : ℚ) - (1 / 5) * s.fgSize.width ∧
    -(4 / 5) * s.fgSize.height ≤ (moves s ms).fgPos.y ∧
    (moves s ms).fgPos.y ≤ (s.canvasHeight : ℚ) - (1 / 5) * s.fgSize.height := by
  rcases List.eq_nil_or_concat ms with h | ⟨init, last, rfl⟩
  · exact absurd h hne
  · obtain ⟨hd, hl, hsz, hcw1, hch1⟩ := moves_dragging_frame init s hdrag hlock
    have hfold : moves s (init.concat last) = pointermove (moves s init) last.1 last.2 := by
      simp [moves, List.concat_eq_append, List.foldl_append]
    rw [hfold, pointermove_dragging (moves s init) last.1 last.2 hd hl, hsz, hcw1, hch1]
    have hcwq : (0 : ℚ) ≤ (s.canvasWidth : ℚ) := by exact_mod_cast hcw
    have hchq : (0 : ℚ) ≤ (s.canvasHeight : ℚ) := by exact_mod_cast hch
    have bx := clamp_bounds (-s.fgSize.width * (4 / 5))
      ((s.canvasWidth : ℚ) - s.fgSize.width * (1 / 5))
      (last.2.clientX - last.1.left - (moves s init).dragOffset.x) (by linarith)
    have bY := clamp_bounds (-s.fgSize.height * (4 / 5))
      ((s.canvasHeight : ℚ) - s.fgSize.height * (1 / 5))
      (last.2.clientY - last.1.top - (moves s init).dragOffset.y) (by linarith)
    refine ⟨?_, ?_, ?_, ?_⟩
    · have := bx.1; simp only; linarith
    · have := bx.2; simp only; linarith
    · have := bY.1; simp only; linarith
    · have := bY.2; simp only; linarith

/-- Witness for C2: a drag from the startup scene to a far away position. -/
theorem drag_keeps_origin_clamped_witness :
    (moves (pointerdown (startup samplePage) originRect (primaryAt 100 100))
      [(originRect, primaryAt 5000 (-7000))]).fgPos.x ≤ (300 : ℚ) - (1 / 5) * 200 ∧
    -(4 / 5) * (200 : ℚ) ≤ (moves (pointerdown (startup samplePage) originRect (primaryAt 100 100))
      [(originRect, primaryAt 5000 (-7000))]).fgPos.y := by
  have h := drag_keeps_origin_clamped
    (pointerdown (startup samplePage) originRect (primaryAt 100 100))
    [(originRect, primaryAt 5000 (-7000))]
    (by norm_num [pointerdown, startup, samplePage, originRect, primaryAt, resizeHandleSize])
    (by norm_num [pointerdown, startup, samplePage, originRect, primaryAt, resizeHandleSize])
    (by norm_num [pointerdown, startup, samplePage, originRect, primaryAt, resizeHandleSize])
    (by norm_num [pointerdown, startup, samplePage, originRect, primaryAt, resizeHandleSize])
    (by norm_num [pointerdown, startup, samplePage, originRect, primaryAt, resizeHandleSize])
    (by norm_num [pointerdown, startup, samplePage, originRect, primaryAt, resizeHandleSize])
    (by simp)
  have e1 : (pointerdown (startup samplePage) originRect (primaryAt 100 100)).fgSize =
      { width := 200, height := 200 } := by
    norm_num [pointerdown, startup, samplePage, originRect, primaryAt, resizeHandleSize]
  have e2 : (pointerdown (startup samplePage) originRect (primaryAt 100 100)).canvasWidth = 300 := by
    norm_num [pointerdown, startup, samplePage, originRect, primaryAt, resizeHandleSize]
  rw [e1, e2] at h
  exact ⟨by simpa using h.2.1, by simpa using h.2.2.1⟩

/-- The fields of `wideScene`, evaluated. -/
theorem wideScene_eq : wideScene =
    { fgImg := { src := "blob:fg", complete := true, width := 400, height := 200 }
      bgImg := newImage
      fgPos := { x := 40, y := 40 }
      fgSize := { width := 400, height := 200 }
      dragging := false
      resizing := true
      dragOffset := { x := 0, y := 0 }
      isFinalized := false
      canvasWidth := 520
      canvasHeight := 320
      bgColor := "#ffffff"
      unlockBtnDisplay := "none" } := by
  norm_num [wideScene, run, step, assignFgImg, fgImgOnload, resetCanvasSize,
    setCanvasDimension, mathRound,
    pointerdown, startup, samplePage, originRect, primaryAt, resizeHandleSize]

/-! ## Resizing -/

/-- One pointer-move of a resize whose image has non-zero intrinsic
dimensions: only `fgSize` is written, by the aspect-lock branch. -/
theorem pointermove_resizing (s : State) (rect : Rect) (e : PointerEvent)
    (hres : s.resizing = true) (hdrag : s.dragging = false) (hlock : s.isFinalized = false)
    (hiw : 0 < s.fgImg.width) (hih : 0 < s.fgImg.height) :
    pointermove s rect e =
      if max 40 (e.clientX - rect.left - s.fgPos.x) / max 40 (e.clientY - rect.top - s.fgPos.y) >
          (s.fgImg.width : ℚ) / (s.fgImg.height : ℚ) then
        { s with
          fgSize :=
            { width := max 40 (e.clientY - rect.top - s.fgPos.y) *
                ((s.fgImg.width : ℚ) / (s.fgImg.height : ℚ))
              height := max 40 (e.clientY - rect.top - s.fgPos.y) } }
      else
        { s with
          fgSize :=
            { width := max 40 (e.clientX - rect.left - s.fgPos.x)
              height := max 40 (e.clientX - rect.left - s.fgPos.x) /
                ((s.fgImg.width : ℚ) / (s.fgImg.height : ℚ)) } } := by
  simp [pointermove, hres, hdrag, hlock, Nat.pos_iff_ne_zero.mp hiw, Nat.pos_iff_ne_zero.mp hih]

/-- C3: in mode Resizing, unlocked, with intrinsic width and height positive,
after a pointer-move at any position `width / height` equals the intrinsic
ratio `iw / ih` exactly. -/
theorem resize_keeps_aspect (s : State) (rect : Rect) (e : PointerEvent)
    (hres : s.resizing = true) (hdrag : s.dragging = false) (hlock : s.isFinalized = false)
    (hiw : 0 < s.fgImg.width) (hih : 0 < s.fgImg.height) :
    (pointermove s rect e).fgSize.width / (pointermove s rect e).fgSize.height =
      (s.fgImg.width : ℚ) / (s.fgImg.height : ℚ) := by
  have hiwq : (0 : ℚ) < (s.fgImg.width : ℚ) := by exact_mod_cast hiw
  have hihq : (0 : ℚ) < (s.fgImg.height : ℚ) := by exact_mod_cast hih
  have hW : (0 : ℚ) < max 40 (e.clientX - rect.left - s.fgPos.x) :=
    lt_of_lt_of_le (by norm_num) (le_max_left _ _)
  have hH : (0 : ℚ) < max 40 (e.clientY - rect.top - s.fgPos.y) :=
    lt_of_lt_of_le (by norm_num) (le_max_left _ _)
  rw [pointermove_resizing s rect e hres hdrag hlock hiw hih]
  split_ifs
  · simp only
    field_simp
    ring
  · simp only
    field_simp
    ring

/-- Witness for C3: a resize of the 400 by 200 scene keeps the ratio 2. -/
theorem resize_keeps_aspect_witness :
    (pointermove wideScene originRect (primaryAt 100 100)).fgSize.width /
        (pointermove wideScene originRect (primaryAt 100 100)).fgSize.height =
      ((400 : ℕ) : ℚ) / ((200 : ℕ) : ℚ) := by
  have h := resize_keeps_aspect wideScene originRect (primaryAt 100 100)
    (by rw [wideScene_eq]) (by rw [wideScene_eq]) (by rw [wideScene_eq])
    (by rw [wideScene_eq]; norm_num) (by rw [wideScene_eq]; norm_num)
  rw [h, wideScene_eq]

/-- Counterexample for C4: on the 400 by 200 scene in mode Resizing, a
pointer-move to `(100, 100)` gives candidates 60 by 60 and the aspect lock
shrinks the height to 30, below 40. -/
theorem resize_height_below_forty :
    isResizing wideScene = true ∧ wideScene.isFinalized = false ∧
      0 < wideScene.fgImg.width ∧ 0 < wideScene.fgImg.height ∧
      (pointermove wideScene originRect (primaryAt 100 100)).fgSize = { width := 60, height := 30 } ∧
      ¬ (40 ≤ (pointermove wideScene originRect (primaryAt 100 100)).fgSize.height) := by
  rw [wideScene_eq]
  norm_num [isResizing, pointermove, originRect, primaryAt]

/-- C4, amended: in mode Resizing, unlocked, with intrinsic width and height
positive and `a = iw / ih`, after a pointer-move at any position both
dimensions are positive, at least one of them is at least 40,
`width ≥ 40 * min 1 a` and `height ≥ 40 * min 1 (1 / a)`. -/
theorem resize_min_dimensions (s : State) (rect : Rect) (e : PointerEvent)
    (hres : s.resizing = true) (hdrag : s.dragging = false) (hlock : s.isFinalized = false)
    (hiw : 0 < s.fgImg.width) (hih : 0 < s.fgImg.height) :
    0 < (pointermove s rect e).fgSize.width ∧ 0 < (pointermove s rect e).fgSize.height ∧
    (40 ≤ (pointermove s rect e).fgSize.width ∨ 40 ≤ (pointermove s rect e).fgSize.height) ∧
    40 * min 1 ((s.fgImg.width : ℚ) / (s.fgImg.height : ℚ)) ≤
      (pointermove s rect e).fgSize.width ∧
    40 * min 1 (1 / ((s.fgImg.width : ℚ) / (s.fgImg.height : ℚ))) ≤
      (pointermove s rect e).fgSize.height := by
  have hiwq : (0 : ℚ) < (s.fgImg.width : ℚ) := by exact_mod_cast hiw
  have hihq : (0 : ℚ) < (s.fgImg.height : ℚ) := by exact_mod_cast hih
  have ha : (0 : ℚ) < (s.fgImg.width : ℚ) / (s.fgImg.height : ℚ) := div_pos hiwq hihq
  have hW : (40 : ℚ) ≤ max 40 (e.clientX - rect.left - s.fgPos.x) := le_max_left _ _
  have hH : (40 : ℚ) ≤ max 40 (e.clientY - rect.top - s.fgPos.y) := le_max_left _ _
  have hm1 : min 1 ((s.fgImg.width : ℚ) / (s.fgImg.height : ℚ)) ≤ 1 := min_le_left _ _
  have hm2 : min 1 ((s.fgImg.width : ℚ) / (s.fgImg.height : ℚ)) ≤
      (s.fgImg.width : ℚ) / (s.fgImg.height : ℚ) := min_le_right _ _
  have hn1 : min 1 (1 / ((s.fgImg.width : ℚ) / (s.fgImg.height : ℚ))) ≤ 1 := min_le_left _ _
  have hn2 : min 1 (1 / ((s.fgImg.width : ℚ) / (s.fgImg.height : ℚ))) ≤
      1 / ((s.fgImg.width : ℚ) / (s.fgImg.height : ℚ)) := min_le_right _ _
  rw [pointermove_resizing s rect e hres hdrag hlock hiw hih]
  split_ifs
  · simp only
    refine ⟨by positivity, by linarith, Or.inr hH, ?_, by linarith⟩
    calc 40 * min 1 ((s.fgImg.width : ℚ) / (s.fgImg.height : ℚ))
        ≤ 40 * ((s.fgImg.width : ℚ) / (s.fgImg.height : ℚ)) := by linarith
      _ ≤ max 40 (e.clientY - rect.top - s.fgPos.y) *
            ((s.fgImg.width : ℚ) / (s.fgImg.height : ℚ)) :=
          mul_le_mul_of_nonneg_right hH ha.le
  · simp only
    refine ⟨by linarith, by positivity, Or.inl hW, by linarith, ?_⟩
    calc 40 * min 1 (1 / ((s.fgImg.width : ℚ) / (s.fgImg.height : ℚ)))
        ≤ 40 * (1 / ((s.fgImg.width : ℚ) / (s.fgImg.height : ℚ))) := by linarith
      _ = 40 / ((s.fgImg.width : ℚ) / (s.fgImg.height : ℚ)) := by ring
      _ ≤ max 40 (e.clientX - rect.left - s.fgPos.x) /
            ((s.fgImg.width : ℚ) / (s.fgImg.height : ℚ)) :=
          div_le_div_of_nonneg_right hW ha.le

/-- Witness for C4: the resize of the 400 by 200 scene to `(100, 100)`. -/
theorem resize_min_dimensions_witness :
    40 ≤ (pointermove wideScene originRect (primaryAt 100 100)).fgSize.width ∨
      40 ≤ (pointermove wideScene originRect (primaryAt 100 100)).fgSize.height :=
  (resize_min_dimensions wideScene originRect (primaryAt 100 100)
    (by rw [wideScene_eq]) (by rw [wideScene_eq]) (by rw [wideScene_eq])
    (by rw [wideScene_eq]; norm_num) (by rw [wideScene_eq]; norm_num)).2.2.1

/-! ## Release -/

/-- C5: from mode Dragging or Resizing, locked or not, a pointer-up at any
position (delivered to the canvas or only to the window) gives mode Idle with
both flags cleared, and leaves the foreground position and size, the canvas
dimensions and the lock flag unchanged. -/
theorem pointerup_returns_to_idle (s : State) (e : PointerEvent) (onCanvas : Bool)
    (hmode : isDragging s = true ∨ isResizing s = true) :
    isIdle (pointerup s e onCanvas) = true ∧
    (pointerup s e onCanvas).dragging = false ∧ (pointerup s e onCanvas).resizing = false ∧
    (pointerup s e onCanvas).fgPos = s.fgPos ∧ (pointerup s e onCanvas).fgSize = s.fgSize ∧
    (pointerup s e onCanvas).canvasWidth = s.canvasWidth ∧
    (pointerup s e onCanvas).canvasHeight = s.canvasHeight ∧
    (pointerup s e onCanvas).isFinalized = s.isFinalized := by
  cases hd : s.dragging <;> cases hr : s.resizing <;> cases onCanvas <;>
    simp [isDragging, isResizing, hd, hr] at hmode <;>
    simp [pointerup, releasePointer, isIdle, hd, hr]

/-- Witness for C5: releasing the resize of the 400 by 200 scene far outside
the canvas. -/
theorem pointerup_returns_to_idle_witness :
    isIdle (pointerup wideScene (primaryAt (-9000) 9000) false) = true :=
  (pointerup_returns_to_idle wideScene (primaryAt (-9000) 9000) false
    (Or.inr (by rw [wideScene_eq]; rfl))).1

/-- The fields of `draggingScene`, evaluated. -/
theorem draggingScene_eq : draggingScene =
    { fgImg := { src := "blob:fg", complete := true, width := 400, height := 200 }
      bgImg := newImage
      fgPos := { x := 40, y := 40 }
      fgSize := { width := 400, height := 200 }
      dragging := true
      resizing := false
      dragOffset := { x := 60, y := 60 }
      isFinalized := false
      canvasWidth := 520
      canvasHeight := 320
      bgColor := "#ffffff"
      unlockBtnDisplay := "none" } := by
  norm_num [draggingScene, run, step, assignFgImg, fgImgOnload, resetCanvasSize,
    setCanvasDimension, mathRound,
    pointerdown, startup, samplePage, originRect, primaryAt, resizeHandleSize]

/-- The fields of `lockedScene`, evaluated. -/
theorem lockedScene_eq : lockedScene =
    { fgImg := { src := "blob:fg", complete := true, width := 400, height := 200 }
      bgImg := newImage
      fgPos := { x := 40, y := 40 }
      fgSize := { width := 400, height := 200 }
      dragging := false
      resizing := false
      dragOffset := { x := 0, y := 0 }
      isFinalized := true
      canvasWidth := 520
      canvasHeight := 320
      bgColor := "#ffffff"
      unlockBtnDisplay := "inline-block" } := by
  norm_num [lockedScene, run, step, assignFgImg, fgImgOnload, resetCanvasSize,
    setCanvasDimension, mathRound,
    startup, samplePage]
  simp [applyBgClick]

/-- The fields of `lockedSceneWithBg`, evaluated. -/
theorem lockedSceneWithBg_eq : lockedSceneWithBg =
    { fgImg := { src := "blob:fg", complete := true, width := 400, height := 200 }
      bgImg := { src := "data:bg", complete := true, width := 1000, height := 600 }
      fgPos := { x := 40, y := 40 }
      fgSize := { width := 400, height := 200 }
      dragging := false
      resizing := false
      dragOffset := { x := 0, y := 0 }
      isFinalized := true
      canvasWidth := 1000
      canvasHeight := 600
      bgColor := "#ffffff"
      unlockBtnDisplay := "inline-block" } := by
  norm_num [lockedSceneWithBg, run, step, assignFgImg, fgImgOnload, assignBgImg, bgImgOnload,
    resetCanvasSize, setCanvasDimension, mathRound, startup, samplePage]
  simp [applyBgClick]

/-! ## Lock -/

/-- C6: while locked, a pointer-down at any position with any button leaves
the whole state unchanged (so an Idle mode stays Idle and no drag offset is
recorded), and a pointer-move leaves the foreground position and size
unchanged. -/
theorem locked_pointer_events_inert (s : State) (rect : Rect) (e : PointerEvent)
    (hlock : s.isFinalized = true) :
    pointerdown s rect e = s ∧
    (isIdle s = true → isIdle (pointerdown s rect e) = true) ∧
    (pointerdown s rect e).dragOffset = s.dragOffset ∧
    (pointermove s rect e).fgPos = s.fgPos ∧ (pointermove s rect e).fgSize = s.fgSize := by
  have hdown : pointerdown s rect e = s := by simp [pointerdown, hlock]
  have hmove : pointermove s rect e = s := by simp [pointermove, hlock]
  rw [hdown, hmove]
  exact ⟨rfl, id, rfl, rfl, rfl⟩

/-- Witness for C6: a pointer-down on the handle of the finalized scene. -/
theorem locked_pointer_events_inert_witness :
    pointerdown lockedScene originRect (primaryAt 430 230) = lockedScene :=
  (locked_pointer_events_inert lockedScene originRect (primaryAt 430 230)
    (by rw [lockedScene_eq])).1

/-- Counterexample for C7: finalizing the scene while a drag is in progress
locks it and leaves the mode Dragging, not Idle. -/
theorem applyBg_keeps_dragging :
    draggingScene.fgImg.src ≠ "" ∧
      (applyBgClick draggingScene).1.isFinalized = true ∧
      isDragging (applyBgClick draggingScene).1 = true ∧
      isIdle (applyBgClick draggingScene).1 = false := by
  rw [draggingScene_eq]
  simp [applyBgClick, isDragging, isIdle]

/-- C7, amended: when a foreground image is present, Finalize sets the lock
and leaves the flags `dragging` and `resizing` as they were, so the mode is
Idle afterwards when it was Idle before; a second Finalize leaves the state
as the first left it. -/
theorem applyBg_locks (s : State) (hfg : s.fgImg.src ≠ "") :
    (applyBgClick s).1.isFinalized = true ∧
    (applyBgClick s).1.dragging = s.dragging ∧
    (applyBgClick s).1.resizing = s.resizing ∧
    (isIdle s = true → isIdle (applyBgClick s).1 = true) ∧
    (applyBgClick (applyBgClick s).1).1 = (applyBgClick s).1 := by
  simp [applyBgClick, hfg, isIdle]

/-- Witness for C7: finalizing the scene whose foreground has loaded. -/
theorem applyBg_locks_witness :
    (applyBgClick draggingScene).1.isFinalized = true ∧
      (applyBgClick (applyBgClick draggingScene).1).1 = (applyBgClick draggingScene).1 :=
  have h := applyBg_locks draggingScene (by rw [draggingScene_eq]; decide)
  ⟨h.1, h.2.2.2.2⟩

/-- C8: when no foreground image is loaded (the slot has an empty source),
Finalize shows the precondition alert and returns the state unchanged. -/
theorem applyBg_without_foreground (s : State) (hfg : s.fgImg.src = "") :
    applyBgClick s = (s, "Remove background first (or load a foreground).") := by
  simp [applyBgClick, hfg]

/-- Witness for C8: Finalize on the startup scene. -/
theorem applyBg_without_foreground_witness :
    applyBgClick (startup samplePage) =
      (startup samplePage, "Remove background first (or load a foreground).") :=
  applyBg_without_foreground (startup samplePage) rfl

/-- Counterexample for C9: on a finalized scene without a background image the
remove-background command shows its alert and the scene stays locked. -/
theorem removeBgImage_keeps_lock :
    lockedScene.isFinalized = true ∧
      (removeBgImageClick lockedScene).1.isFinalized = true ∧
      (step lockedScene .removeBgImage).isFinalized = true := by
  rw [lockedScene_eq]
  simp [step, removeBgImageClick, newImage]

/-- C9, amended: a foreground image finishing load, a background image
finishing load and a colour change unlock every state; removing the
background image unlocks when a background image is present, and otherwise
shows an alert and leaves the state, the lock included, unchanged. -/
theorem scene_mutation_unlocks (s : State) (w h : ℕ) (v : String) :
    (fgImgOnload s w h).isFinalized = false ∧
    (bgImgOnload s w h).isFinalized = false ∧
    (bgColorInputHandler s v).isFinalized = false ∧
    (s.bgImg.src ≠ "" → (removeBgImageClick s).1.isFinalized = false) ∧
    (s.bgImg.src = "" →
      removeBgImageClick s = (s, some "No background image to remove.")) := by
  refine ⟨rfl, rfl, rfl, ?_, ?_⟩
  · intro hbg
    simp [removeBgImageClick, hbg, resetCanvasSize]
  · intro hbg
    simp [removeBgImageClick, hbg]

/-- Witness for C9: the four commands on a finalized scene that has a
background image. -/
theorem scene_mutation_unlocks_witness :
    lockedSceneWithBg.isFinalized = true ∧
      (fgImgOnload lockedSceneWithBg 640 480).isFinalized = false ∧
      (bgImgOnload lockedSceneWithBg 640 480).isFinalized = false ∧
      (bgColorInputHandler lockedSceneWithBg "#000000").isFinalized = false ∧
      (removeBgImageClick lockedSceneWithBg).1.isFinalized = false :=
  have h := scene_mutation_unlocks lockedSceneWithBg 640 480 "#000000"
  ⟨by rw [lockedSceneWithBg_eq], h.1, h.2.1, h.2.2.1,
    h.2.2.2.1 (by rw [lockedSceneWithBg_eq]; decide)⟩

/-! ## Mode invariant -/

/-- The flags after a pointer-move are the flags before it. -/
theorem pointermove_flags (s : State) (rect : Rect) (e : PointerEvent) :
    (pointermove s rect e).dragging = s.dragging ∧
      (pointermove s rect e).resizing = s.resizing := by
  simp only [pointermove]
  split_ifs <;> exact ⟨rfl, rfl⟩

/-- The function `releasePointer` clears both flags or changes nothing. -/
theorem releasePointer_flags (s : State) (e : PointerEvent) :
    ((releasePointer s e).dragging = false ∧ (releasePointer s e).resizing = false) ∨
      releasePointer s e = s := by
  unfold releasePointer
  split_ifs
  · exact Or.inl ⟨rfl, rfl⟩
  · exact Or.inr rfl

/-- A pointer-down on an Idle scene sets at most one flag. -/
theorem pointerdown_flags_of_idle (s : State) (rect : Rect) (e : PointerEvent)
    (hidle : isIdle s = true) :
    ¬ ((pointerdown s rect e).dragging = true ∧ (pointerdown s rect e).resizing = true) := by
  have hd : s.dragging = false := by
    simp only [isIdle, Bool.and_eq_true, Bool.not_eq_true'] at hidle
    exact hidle.1
  have hr : s.resizing = false := by
    simp only [isIdle, Bool.and_eq_true, Bool.not_eq_true'] at hidle
    exact hidle.2
  simp only [pointerdown]
  split_ifs <;> simp [hd, hr]

/-- Every event other than a pointer-down keeps the two flags from being set
together. -/
theorem step_flags (s : State) (ev : Event)
    (hdown : ∀ rect e, ev = .pointerdown rect e → isIdle s = true)
    (hinv : ¬ (s.dragging = true ∧ s.resizing = true)) :
    ¬ ((step s ev).dragging = true ∧ (step s ev).resizing = true) := by
  cases ev with
  | pointerdown rect e => exact pointerdown_flags_of_idle s rect e (hdown rect e rfl)
  | pointermove rect e =>
    obtain ⟨h1, h2⟩ := pointermove_flags s rect e
    simp only [step, h1, h2]
    exact hinv
  | pointerup e onCanvas =>
    simp only [step, pointerup]
    cases onCanvas
    · rcases releasePointer_flags s e with h | h
      · simp [h.1]
      · simpa [h] using hinv
    · rcases releasePointer_flags (releasePointer s e) e with h | h
      · simp [h.1]
      · rcases releasePointer_flags s e with h2 | h2
        · simp [h, h2.1]
        · simpa [h, h2] using hinv
  | applyBg =>
    simp only [step, applyBgClick]
    split_ifs <;> exact hinv
  | unlock => exact hinv
  | assignFg url => exact hinv
  | fgLoaded w h => exact hinv
  | assignBg url => exact hinv
  | bgLoaded w h => exact hinv
  | removeBgImage =>
    simp only [step, removeBgImageClick]
    split_ifs <;> exact hinv
  | bgColor v => exact hinv

/-- The flags are never set together along a sequence whose pointer-downs
arrive while Idle. -/
theorem run_flags (evs : List Event) (s : State)
    (hinv : ¬ (s.dragging = true ∧ s.resizing = true))
    (hseq : pointerDownsWhenIdle s evs = true) :
    ¬ ((run s evs).dragging = true ∧ (run s evs).resizing = true) := by
  induction evs generalizing s with
  | nil => exact hinv
  | cons ev rest ih =>
    have hrun : run s (ev :: rest) = run (step s ev) rest := rfl
    rw [hrun]
    cases ev with
    | pointerdown rect e =>
      simp only [pointerDownsWhenIdle, Bool.and_eq_true] at hseq
      exact ih _ (step_flags s _ (fun _ _ _ => hseq.1) hinv) hseq.2
    | pointermove rect e =>
      exact ih _ (step_flags s _ (fun _ _ h => by cases h) hinv) hseq
    | pointerup e onCanvas =>
      exact ih _ (step_flags s _ (fun _ _ h => by cases h) hinv) hseq
    | applyBg => exact ih _ (step_flags s _ (fun _ _ h => by cases h) hinv) hseq
    | unlock => exact ih _ (step_flags s _ (fun _ _ h => by cases h) hinv) hseq
    | assignFg url => exact ih _ (step_flags s _ (fun _ _ h => by cases h) hinv) hseq
    | fgLoaded w h => exact ih _ (step_flags s _ (fun _ _ h => by cases h) hinv) hseq
    | assignBg url => exact ih _ (step_flags s _ (fun _ _ h => by cases h) hinv) hseq
    | bgLoaded w h => exact ih _ (step_flags s _ (fun _ _ h => by cases h) hinv) hseq
    | removeBgImage => exact ih _ (step_flags s _ (fun _ _ h => by cases h) hinv) hseq
    | bgColor v => exact ih _ (step_flags s _ (fun _ _ h => by cases h) hinv) hseq

/-- Counterexample for C10: after a pointer-down on the body and, with no
release in between, a pointer-down on the handle, both flags are set and the
state is in none of the three modes. -/
theorem two_pointer_downs_set_both_flags :
    (run (startup samplePage) twoPointerDowns).dragging = true ∧
      (run (startup samplePage) twoPointerDowns).resizing = true ∧
      isIdle (run (startup samplePage) twoPointerDowns) = false ∧
      isDragging (run (startup samplePage) twoPointerDowns) = false ∧
      isResizing (run (startup samplePage) twoPointerDowns) = false := by
  norm_num [twoPointerDowns, run, step, pointerdown, startup, samplePage, originRect, primaryAt,
    resizeHandleSize, isIdle, isDragging, isResizing]

/-- C10, amended: in every state reached from the startup state by a sequence
of events whose pointer-downs all arrive while the mode is Idle, exactly one
of Idle, Dragging, Resizing holds and the flags `dragging` and `resizing` are
not both set. -/
theorem exactly_one_mode (p : Page) (evs : List Event)
    (hseq : pointerDownsWhenIdle (startup p) evs = true) :
    ((isIdle (run (startup p) evs) = true ∧ isDragging (run (startup p) evs) = false ∧
        isResizing (run (startup p) evs) = false) ∨
      (isIdle (run (startup p) evs) = false ∧ isDragging (run (startup p) evs) = true ∧
        isResizing (run (startup p) evs) = false) ∨
      (isIdle (run (startup p) evs) = false ∧ isDragging (run (startup p) evs) = false ∧
        isResizing (run (startup p) evs) = true)) ∧
    ¬ ((run (startup p) evs).dragging = true ∧ (run (startup p) evs).resizing = true) := by
  have h := run_flags evs (startup p) (by simp [startup]) hseq
  refine ⟨?_, h⟩
  cases hd : (run (startup p) evs).dragging <;> cases hr : (run (startup p) evs).resizing <;>
    simp [isIdle, isDragging, isResizing, hd, hr] at h ⊢

/-- Witness for C10: a drag, its release and a pointer-down on the handle. -/
theorem exactly_one_mode_witness :
    pointerDownsWhenIdle (startup samplePage) onePointerGesture = true ∧
      ¬ ((run (startup samplePage) onePointerGesture).dragging = true ∧
        (run (startup samplePage) onePointerGesture).resizing = true) :=
  have hseq : pointerDownsWhenIdle (startup samplePage) onePointerGesture = true := by
    norm_num [onePointerGesture, pointerDownsWhenIdle, step, pointerdown, pointermove, pointerup,
      releasePointer, startup, samplePage, originRect, primaryAt, resizeHandleSize, isIdle]
  ⟨hseq, (exactly_one_mode samplePage onePointerGesture hseq).2⟩

/-- The fields of `squareScene`, evaluated. -/
theorem squareScene_eq : squareScene =
    { fgImg := { src := "blob:fg", complete := true, width := 200, height := 200 }
      bgImg := newImage
      fgPos := { x := 100, y := 100 }
      fgSize := { width := 200, height := 200 }
      dragging := false
      resizing := false
      dragOffset := { x := 10, y := 10 }
      isFinalized := false
      canvasWidth := 320
      canvasHeight := 320
      bgColor := "#ffffff"
      unlockBtnDisplay := "none" } := by
  norm_num [squareScene, run, step, assignFgImg, fgImgOnload, resetCanvasSize,
    setCanvasDimension, mathRound,
    pointerdown, pointermove, pointerup, releasePointer, startup, samplePage, originRect,
    primaryAt, resizeHandleSize]

/-! ## Resize candidates -/

/-- C11, amended: over exact rational arithmetic, in mode Resizing, unlocked,
with intrinsic width and height positive and `a = iw / ih`, a pointer-move to
`(px, py)` with candidates `cw = max 40 (px - fx)` and `ch = max 40 (py - fy)`
sets `width = min cw (a * ch)` and `height = min ch (cw / a)`, so neither
dimension exceeds its candidate. -/
theorem resize_takes_smaller_candidate (s : State) (rect : Rect) (e : PointerEvent)
    (hres : s.resizing = true) (hdrag : s.dragging = false) (hlock : s.isFinalized = false)
    (hiw : 0 < s.fgImg.width) (hih : 0 < s.fgImg.height) :
    (pointermove s rect e).fgSize.width =
      min (max 40 (e.clientX - rect.left - s.fgPos.x))
        ((s.fgImg.width : ℚ) / (s.fgImg.height : ℚ) *
          max 40 (e.clientY - rect.top - s.fgPos.y)) ∧
    (pointermove s rect e).fgSize.height =
      min (max 40 (e.clientY - rect.top - s.fgPos.y))
        (max 40 (e.clientX - rect.left - s.fgPos.x) /
          ((s.fgImg.width : ℚ) / (s.fgImg.height : ℚ))) ∧
    (pointermove s rect e).fgSize.width ≤ max 40 (e.clientX - rect.left - s.fgPos.x) ∧
    (pointermove s rect e).fgSize.height ≤ max 40 (e.clientY - rect.top - s.fgPos.y) := by
  have hiwq : (0 : ℚ) < (s.fgImg.width : ℚ) := by exact_mod_cast hiw
  have hihq : (0 : ℚ) < (s.fgImg.height : ℚ) := by exact_mod_cast hih
  have ha : (0 : ℚ) < (s.fgImg.width : ℚ) / (s.fgImg.height : ℚ) := div_pos hiwq hihq
  have hH : (0 : ℚ) < max 40 (e.clientY - rect.top - s.fgPos.y) :=
    lt_of_lt_of_le (by norm_num) (le_max_left _ _)
  rw [pointermove_resizing s rect e hres hdrag hlock hiw hih]
  split_ifs with hgt
  · have h1 : (s.fgImg.width : ℚ) / (s.fgImg.height : ℚ) *
        max 40 (e.clientY - rect.top - s.fgPos.y) <
        max 40 (e.clientX - rect.left - s.fgPos.x) := (lt_div_iff₀ hH).mp hgt
    have h2 : max 40 (e.clientY - rect.top - s.fgPos.y) <
        max 40 (e.clientX - rect.left - s.fgPos.x) /
          ((s.fgImg.width : ℚ) / (s.fgImg.height : ℚ)) := by
      rw [lt_div_iff₀ ha]
      linarith
    simp only
    refine ⟨?_, ?_, ?_, le_refl _⟩
    · rw [min_eq_right h1.le]
      ring
    · rw [min_eq_left h2.le]
    · linarith
  · have h1 : max 40 (e.clientX - rect.left - s.fgPos.x) ≤
        (s.fgImg.width : ℚ) / (s.fgImg.height : ℚ) *
          max 40 (e.clientY - rect.top - s.fgPos.y) := by
      have := not_lt.mp hgt
      exact (div_le_iff₀ hH).mp this
    have h2 : max 40 (e.clientX - rect.left - s.fgPos.x) /
          ((s.fgImg.width : ℚ) / (s.fgImg.height : ℚ)) ≤
        max 40 (e.clientY - rect.top - s.fgPos.y) := by
      rw [div_le_iff₀ ha]
      linarith
    simp only
    exact ⟨(min_eq_left h1).symm, (min_eq_right h2).symm, le_refl _, h2⟩

/-- Witness for C11: on the scene `{x: 100, y: 100, w: 200, h: 200}` with
aspect 1, a pointer-down at `(284, 284)` gives mode Resizing and a
pointer-move to `(400, 500)` gives candidates 300 and 400 and size 300 by
300. -/
theorem resize_takes_smaller_candidate_witness :
    isResizing (pointerdown squareScene originRect (primaryAt 284 284)) = true ∧
      (pointermove (pointerdown squareScene originRect (primaryAt 284 284)) originRect
        (primaryAt 400 500)).fgSize = { width := 300, height := 300 } := by
  have hdown : pointerdown squareScene originRect (primaryAt 284 284) =
      { squareScene with resizing := true } := by
    rw [squareScene_eq]
    norm_num [pointerdown, originRect, primaryAt, resizeHandleSize]
  have h := resize_takes_smaller_candidate
    (pointerdown squareScene originRect (primaryAt 284 284)) originRect (primaryAt 400 500)
    (by rw [hdown]) (by rw [hdown, squareScene_eq]) (by rw [hdown, squareScene_eq])
    (by rw [hdown, squareScene_eq]; norm_num) (by rw [hdown, squareScene_eq]; norm_num)
  refine ⟨by rw [hdown, squareScene_eq]; rfl, ?_⟩
  obtain ⟨hw, hh, -, -⟩ := h
  generalize pointermove (pointerdown squareScene originRect (primaryAt 284 284)) originRect
    (primaryAt 400 500) = t at hw hh ⊢
  rw [hdown, squareScene_eq] at hw hh
  norm_num [originRect, primaryAt] at hw hh
  rcases hsz : t.fgSize with ⟨a, b⟩
  rw [hsz] at hw hh
  simp only at hw hh
  rw [hw, hh]

/-! ## Foreground load -/

/-- The scale of `fgImg.onload`: `min 1 (min 800 iw / iw)` is
`min 1 (800 / iw)` for a positive width. -/
theorem onload_scale (iw : ℚ) (hiw : 0 < iw) :
    min 1 (min 800 iw / iw) = min 1 (800 / iw) := by
  rcases le_total iw 800 with h | h
  · have h1 : (1 : ℚ) ≤ 800 / iw := (one_le_div hiw).mpr h
    rw [min_eq_right h, div_self hiw.ne', min_self, min_eq_left h1]
  · rw [min_eq_left h]

/-- The size written by `fgImg.onload`. -/
theorem fgImgOnload_fgSize (s : State) (iw ih : ℕ) :
    (fgImgOnload s iw ih).fgSize =
      { width := (iw : ℚ) * min 1 (min 800 (iw : ℚ) / (iw : ℚ))
        height := (ih : ℚ) * min 1 (min 800 (iw : ℚ) / (iw : ℚ)) } := rfl

/-- C12, amended: over exact rational arithmetic, for intrinsic width and
height positive, after the load `width = min iw 800` and
`height = ih * min 1 (800 / iw)`; the image is not scaled up, the width is at
most 800 and `width / height = iw / ih`. -/
theorem fgImgOnload_scales_down (s : State) (iw ih : ℕ) (hiw : 0 < iw) (hih : 0 < ih) :
    (fgImgOnload s iw ih).fgSize.width = min (iw : ℚ) 800 ∧
    (fgImgOnload s iw ih).fgSize.height = (ih : ℚ) * min 1 (800 / (iw : ℚ)) ∧
    (fgImgOnload s iw ih).fgSize.width ≤ (iw : ℚ) ∧
    (fgImgOnload s iw ih).fgSize.height ≤ (ih : ℚ) ∧
    (fgImgOnload s iw ih).fgSize.width ≤ 800 ∧
    (fgImgOnload s iw ih).fgSize.width / (fgImgOnload s iw ih).fgSize.height =
      (iw : ℚ) / (ih : ℚ) := by
  have hiwq : (0 : ℚ) < (iw : ℚ) := by exact_mod_cast hiw
  have hihq : (0 : ℚ) < (ih : ℚ) := by exact_mod_cast hih
  have hpos : (0 : ℚ) < min 1 (800 / (iw : ℚ)) := lt_min (by norm_num) (by positivity)
  have hle : min 1 (800 / (iw : ℚ)) ≤ 1 := min_le_left _ _
  have hwidth : (iw : ℚ) * min 1 (800 / (iw : ℚ)) = min (iw : ℚ) 800 := by
    rcases le_total (iw : ℚ) 800 with h | h
    · rw [min_eq_left ((one_le_div hiwq).mpr h), mul_one, min_eq_left h]
    · rw [min_eq_right ((div_le_one hiwq).mpr h), min_eq_right h]
      field_simp
  rw [fgImgOnload_fgSize, onload_scale _ hiwq]
  refine ⟨hwidth, rfl, ?_, ?_, ?_, ?_⟩
  · show (iw : ℚ) * min 1 (800 / (iw : ℚ)) ≤ (iw : ℚ)
    rw [hwidth]
    exact min_le_left _ _
  · show (ih : ℚ) * min 1 (800 / (iw : ℚ)) ≤ (ih : ℚ)
    calc (ih : ℚ) * min 1 (800 / (iw : ℚ)) ≤ (ih : ℚ) * 1 :=
          mul_le_mul_of_nonneg_left hle hihq.le
      _ = (ih : ℚ) := mul_one _
  · show (iw : ℚ) * min 1 (800 / (iw : ℚ)) ≤ 800
    rw [hwidth]
    exact min_le_right _ _
  · show (iw : ℚ) * min 1 (800 / (iw : ℚ)) / ((ih : ℚ) * min 1 (800 / (iw : ℚ))) =
      (iw : ℚ) / (ih : ℚ)
    field_simp
    ring

/-- Witness for C12: a 1600 by 1200 image is loaded at 800 by 600. -/
theorem fgImgOnload_scales_down_witness :
    (fgImgOnload (startup samplePage) 1600 1200).fgSize.width = min ((1600 : ℕ) : ℚ) 800 ∧
      (fgImgOnload (startup samplePage) 1600 1200).fgSize.width ≤ 800 :=
  have h := fgImgOnload_scales_down (startup samplePage) 1600 1200 (by norm_num) (by norm_num)
  ⟨h.1, h.2.2.2.2.1⟩

/-- An assignment to a canvas dimension keeps a value in the range of the DOM
attribute. -/
theorem setCanvasDimension_of_le (dflt v : ℤ) (h0 : 0 ≤ v) (h1 : v ≤ 2147483647) :
    setCanvasDimension dflt v = v := by
  have hmod : v % 4294967296 = v := Int.emod_eq_of_lt h0 (by omega)
  simp only [setCanvasDimension, hmod, if_pos h1]

/-- The function `Math.round` does not pass an integer above its argument. -/
theorem mathRound_le_of_le (v : ℚ) (n : ℤ) (h : v ≤ (n : ℚ)) : mathRound v ≤ n := by
  have hlt : mathRound v < n + 1 := by
    unfold mathRound
    rw [Int.floor_lt]
    push_cast
    linarith
  omega

/-- The rounding of `Math.round` loses less than one half. -/
theorem mathRound_gt (v : ℚ) : v - 1 / 2 < (mathRound v : ℚ) := by
  have h := Int.lt_floor_add_one (v + 1 / 2)
  unfold mathRound
  linarith

/-- The size written by `fgImg.onload` for an image with positive intrinsic
dimensions is at most 800 wide and at most the intrinsic height tall. -/
theorem fgImgOnload_size_le (s : State) (iw ih : ℕ) (hiw : 0 < iw) (hih : 0 < ih) :
    (fgImgOnload s iw ih).fgSize.width ≤ 800 ∧
      (fgImgOnload s iw ih).fgSize.height ≤ (ih : ℚ) := by
  have hiwq : (0 : ℚ) < (iw : ℚ) := by exact_mod_cast hiw
  have hihq : (0 : ℚ) < (ih : ℚ) := by exact_mod_cast hih
  have hle : min 1 (800 / (iw : ℚ)) ≤ 1 := min_le_left _ _
  have hle2 : min 1 (800 / (iw : ℚ)) ≤ 800 / (iw : ℚ) := min_le_right _ _
  rw [fgImgOnload_fgSize, onload_scale _ hiwq]
  constructor
  · show (iw : ℚ) * min 1 (800 / (iw : ℚ)) ≤ 800
    calc (iw : ℚ) * min 1 (800 / (iw : ℚ)) ≤ (iw : ℚ) * (800 / (iw : ℚ)) :=
          mul_le_mul_of_nonneg_left hle2 hiwq.le
      _ = 800 := by field_simp
  · show (ih : ℚ) * min 1 (800 / (iw : ℚ)) ≤ (ih : ℚ)
    calc (ih : ℚ) * min 1 (800 / (iw : ℚ)) ≤ (ih : ℚ) * 1 :=
          mul_le_mul_of_nonneg_left hle hihq.le
      _ = (ih : ℚ) := mul_one _

/-- The canvas written by `fgImg.onload`, in terms of the loaded size, for an
image with positive intrinsic dimensions whose height leaves the canvas height
in the range of the DOM attribute. -/
theorem fgImgOnload_surface_aux (s : State) (iw ih : ℕ) (hiw : 0 < iw) (hih : 0 < ih)
    (hmax : ih ≤ 2147483527) :
    (fgImgOnload s iw ih).canvasWidth =
      max 300 (mathRound ((fgImgOnload s iw ih).fgSize.width + 120)) ∧
    (fgImgOnload s iw ih).canvasHeight =
      max 200 (mathRound ((fgImgOnload s iw ih).fgSize.height + 120)) ∧
    300 ≤ (fgImgOnload s iw ih).canvasWidth ∧
    200 ≤ (fgImgOnload s iw ih).canvasHeight := by
  obtain ⟨hw, hh⟩ := fgImgOnload_size_le s iw ih hiw hih
  have hmaxq : (ih : ℚ) ≤ 2147483527 := by exact_mod_cast hmax
  have hrw : mathRound ((fgImgOnload s iw ih).fgSize.width + 120) ≤ 2147483647 :=
    mathRound_le_of_le _ _ (by push_cast; linarith)
  have hrh : mathRound ((fgImgOnload s iw ih).fgSize.height + 120) ≤ 2147483647 :=
    mathRound_le_of_le _ _ (by push_cast; linarith)
  have ew : (fgImgOnload s iw ih).canvasWidth =
      setCanvasDimension 300 (max 300 (mathRound ((fgImgOnload s iw ih).fgSize.width + 120))) :=
    rfl
  have eh : (fgImgOnload s iw ih).canvasHeight =
      setCanvasDimension 150 (max 200 (mathRound ((fgImgOnload s iw ih).fgSize.height + 120))) :=
    rfl
  have cw := setCanvasDimension_of_le 300
    (max 300 (mathRound ((fgImgOnload s iw ih).fgSize.width + 120)))
    (le_trans (by norm_num) (le_max_left _ _)) (max_le (by norm_num) hrw)
  have ch := setCanvasDimension_of_le 150
    (max 200 (mathRound ((fgImgOnload s iw ih).fgSize.height + 120)))
    (le_trans (by norm_num) (le_max_left _ _)) (max_le (by norm_num) hrh)
  rw [ew, eh, cw, ch]
  exact ⟨rfl, rfl, le_max_left _ _, le_max_left _ _⟩

/-- C13: after the load of a foreground image with positive intrinsic
dimensions (and a height of at most 2147483527, so that the canvas height is
in the range of the DOM attribute) the canvas is `max 300 (round (w + 120))`
by `max 200 (round (h + 120))` for the loaded size `w` by `h`, hence at least
300 by 200. -/
theorem fgImgOnload_surface (s : State) (iw ih : ℕ) (hiw : 0 < iw) (hih : 0 < ih)
    (hmax : ih ≤ 2147483527) :
    (fgImgOnload s iw ih).canvasWidth =
      max 300 (mathRound ((fgImgOnload s iw ih).fgSize.width + 120)) ∧
    (fgImgOnload s iw ih).canvasHeight =
      max 200 (mathRound ((fgImgOnload s iw ih).fgSize.height + 120)) ∧
    300 ≤ (fgImgOnload s iw ih).canvasWidth ∧
    200 ≤ (fgImgOnload s iw ih).canvasHeight :=
  fgImgOnload_surface_aux s iw ih hiw hih hmax

/-- Witness for C13: a 500 by 300 foreground gives a 620 by 420 canvas. -/
theorem fgImgOnload_surface_witness :
    (fgImgOnload (startup samplePage) 500 300).fgSize = { width := 500, height := 300 } ∧
      (fgImgOnload (startup samplePage) 500 300).canvasWidth = 620 ∧
      (fgImgOnload (startup samplePage) 500 300).canvasHeight = 420 := by
  have hsz : (fgImgOnload (startup samplePage) 500 300).fgSize =
      { width := 500, height := 300 } := by
    rw [fgImgOnload_fgSize]
    norm_num
  have h := fgImgOnload_surface (startup samplePage) 500 300 (by norm_num) (by norm_num)
    (by norm_num)
  rw [hsz] at h
  refine ⟨hsz, ?_, ?_⟩
  · rw [h.1]
    norm_num [mathRound]
  · rw [h.2.1]
    norm_num [mathRound]

/-- Counterexample for C17: after a 400 by 200 image loads the canvas is 520
by 320 and the origin is `(40, 40)`, while the centred origin is
`(60, 60)`. -/
theorem fgImgOnload_not_centered :
    (fgImgOnload (startup samplePage) 400 200).fgPos = { x := 40, y := 40 } ∧
      (((fgImgOnload (startup samplePage) 400 200).canvasWidth : ℚ) -
        (fgImgOnload (startup samplePage) 400 200).fgSize.width) / 2 = 60 ∧
      (((fgImgOnload (startup samplePage) 400 200).canvasHeight : ℚ) -
        (fgImgOnload (startup samplePage) 400 200).fgSize.height) / 2 = 60 ∧
      (fgImgOnload (startup samplePage) 400 200).fgPos.x ≠
        (((fgImgOnload (startup samplePage) 400 200).canvasWidth : ℚ) -
          (fgImgOnload (startup samplePage) 400 200).fgSize.width) / 2 := by
  norm_num [fgImgOnload, resetCanvasSize, setCanvasDimension, mathRound, startup, samplePage]

/-- C17, amended: after the load of a foreground image with positive
intrinsic dimensions (and a height of at most 2147483527, so that the canvas
height is in the range of the DOM attribute) the origin is the fixed offset
`(40, 40)`, which lies strictly left of and above the centred origin:
`40 < (surfaceW - width) / 2` and `40 < (surfaceH - height) / 2`. -/
theorem fgImgOnload_fixed_offset (s : State) (iw ih : ℕ) (hiw : 0 < iw) (hih : 0 < ih)
    (hmax : ih ≤ 2147483527) :
    (fgImgOnload s iw ih).fgPos = { x := 40, y := 40 } ∧
    (40 : ℚ) < (((fgImgOnload s iw ih).canvasWidth : ℚ) -
      (fgImgOnload s iw ih).fgSize.width) / 2 ∧
    (40 : ℚ) < (((fgImgOnload s iw ih).canvasHeight : ℚ) -
      (fgImgOnload s iw ih).fgSize.height) / 2 := by
  obtain ⟨hcw, hch, -, -⟩ := fgImgOnload_surface_aux s iw ih hiw hih hmax
  have hw := mathRound_gt ((fgImgOnload s iw ih).fgSize.width + 120)
  have hh := mathRound_gt ((fgImgOnload s iw ih).fgSize.height + 120)
  have h1 : (mathRound ((fgImgOnload s iw ih).fgSize.width + 120) : ℚ) ≤
      ((fgImgOnload s iw ih).canvasWidth : ℚ) := by
    rw [hcw]
    exact_mod_cast le_max_right _ _
  have h2 : (mathRound ((fgImgOnload s iw ih).fgSize.height + 120) : ℚ) ≤
      ((fgImgOnload s iw ih).canvasHeight : ℚ) := by
    rw [hch]
    exact_mod_cast le_max_right _ _
  refine ⟨rfl, ?_, ?_⟩
  · linarith
  · linarith

/-- Witness for C17: after a 400 by 200 image loads the origin is `(40, 40)`,
left of and above the centre. -/
theorem fgImgOnload_fixed_offset_witness :
    (fgImgOnload (startup samplePage) 400 200).fgPos = { x := 40, y := 40 } ∧
      (40 : ℚ) < (((fgImgOnload (startup samplePage) 400 200).canvasWidth : ℚ) -
        (fgImgOnload (startup samplePage) 400 200).fgSize.width) / 2 :=
  have h := fgImgOnload_fixed_offset (startup samplePage) 400 200 (by norm_num) (by norm_num)
    (by norm_num)
  ⟨h.1, h.2.1⟩

/-- Counterexample for C18: when an image finishes loading while a drag is in
progress the scene is unlocked and the mode is still Dragging, not Idle. -/
theorem fgImgOnload_keeps_dragging :
    isDragging draggingScene = true ∧
      (fgImgOnload draggingScene 640 480).isFinalized = false ∧
      isDragging (fgImgOnload draggingScene 640 480) = true ∧
      isIdle (fgImgOnload draggingScene 640 480) = false := by
  rw [draggingScene_eq]
  simp [fgImgOnload, resetCanvasSize, isDragging, isIdle]

/-- C18, amended: a foreground image finishing load unlocks every state and
leaves the flags `dragging` and `resizing` as they were, so the mode is Idle
afterwards when it was Idle before. -/
theorem fgImgOnload_unlocks_keeps_flags (s : State) (iw ih : ℕ) :
    (fgImgOnload s iw ih).isFinalized = false ∧
    (fgImgOnload s iw ih).dragging = s.dragging ∧
    (fgImgOnload s iw ih).resizing = s.resizing ∧
    (isIdle s = true → isIdle (fgImgOnload s iw ih) = true) :=
  ⟨rfl, rfl, rfl, fun h => h⟩

/-- Witness for C18: a load on the finalized Idle scene. -/
theorem fgImgOnload_unlocks_keeps_flags_witness :
    lockedScene.isFinalized = true ∧
      (fgImgOnload lockedScene 640 480).isFinalized = false ∧
      isIdle (fgImgOnload lockedScene 640 480) = true :=
  have h := fgImgOnload_unlocks_keeps_flags lockedScene 640 480
  ⟨by rw [lockedScene_eq], h.1, h.2.2.2 (by rw [lockedScene_eq]; rfl)⟩

/-- C19: in mode Resizing (unlocked, and locked as well) a pointer-move at
any position writes `fgSize` only: the origin, the canvas dimensions, the
lock flag and the mode are unchanged. -/
theorem resize_changes_only_size (s : State) (rect : Rect) (e : PointerEvent)
    (hres : s.resizing = true) (hdrag : s.dragging = false) :
    pointermove s rect e = { s with fgSize := (pointermove s rect e).fgSize } ∧
    (pointermove s rect e).fgPos = s.fgPos ∧
    (pointermove s rect e).canvasWidth = s.canvasWidth ∧
    (pointermove s rect e).canvasHeight = s.canvasHeight ∧
    (pointermove s rect e).isFinalized = s.isFinalized ∧
    (pointermove s rect e).dragging = s.dragging ∧
    (pointermove s rect e).resizing = s.resizing ∧
    isResizing (pointermove s rect e) = true := by
  have key : ∃ sz : Size, pointermove s rect e = { s with fgSize := sz } := by
    simp only [pointermove]
    split_ifs <;> first | exact ⟨_, rfl⟩ | exact ⟨s.fgSize, rfl⟩ | simp_all
  obtain ⟨sz, h⟩ := key
  rw [h]
  refine ⟨rfl, rfl, rfl, rfl, rfl, rfl, rfl, ?_⟩
  simp [isResizing, hres, hdrag]

/-- Witness for C19: a resize of the 400 by 200 scene. -/
theorem resize_changes_only_size_witness :
    (pointermove wideScene originRect (primaryAt 900 100)).fgPos = wideScene.fgPos ∧
      isResizing (pointermove wideScene originRect (primaryAt 900 100)) = true :=
  have h := resize_changes_only_size wideScene originRect (primaryAt 900 100)
    (by rw [wideScene_eq]) (by rw [wideScene_eq])
  ⟨h.2.1, h.2.2.2.2.2.2.2⟩

/-! ## Capture loss -/

/-- Counterexample for C16: when capture is lost during a drag and no
pointer-up is delivered, the mode is still Dragging. -/
theorem captureLost_keeps_dragging :
    isDragging draggingScene = true ∧
      isDragging (captureLost draggingScene (primaryAt 100 100)) = true ∧
      isIdle (captureLost draggingScene (primaryAt 100 100)) = false := by
  rw [draggingScene_eq]
  simp [captureLost, isDragging, isIdle]

/-- C16, amended: from mode Dragging or Resizing a loss of capture with no
pointer-up leaves the flags as they were, and the pointer-up that follows,
on the canvas or on the window alone, gives mode Idle. -/
theorem captureLost_then_pointerup (s : State) (e e2 : PointerEvent) (onCanvas : Bool)
    (hmode : isDragging s = true ∨ isResizing s = true) :
    (captureLost s e).dragging = s.dragging ∧
    (captureLost s e).resizing = s.resizing ∧
    isIdle (captureLost s e) = false ∧
    isIdle (pointerup (captureLost s e) e2 onCanvas) = true := by
  cases hd : s.dragging <;> cases hr : s.resizing <;> cases onCanvas <;>
    simp [isDragging, isResizing, hd, hr] at hmode <;>
    simp [captureLost, pointerup, releasePointer, isIdle, hd, hr]

/-- Witness for C16: capture lost during the drag, then a pointer-up on the
window. -/
theorem captureLost_then_pointerup_witness :
    isIdle (captureLost draggingScene (primaryAt 100 100)) = false ∧
      isIdle (pointerup (captureLost draggingScene (primaryAt 100 100))
        (primaryAt 700 700) false) = true :=
  have h := captureLost_then_pointerup draggingScene (primaryAt 100 100) (primaryAt 700 700)
    false (Or.inl (by rw [draggingScene_eq]; rfl))
  ⟨h.2.2.1, h.2.2.2⟩

/-! ## Size invariant -/

/-- A pointer-down writes neither the position, the size nor the canvas. -/
theorem pointerdown_frame (s : State) (rect : Rect) (e : PointerEvent) :
    (pointerdown s rect e).fgPos = s.fgPos ∧ (pointerdown s rect e).fgSize = s.fgSize ∧
      (pointerdown s rect e).canvasWidth = s.canvasWidth ∧
      (pointerdown s rect e).canvasHeight = s.canvasHeight := by
  simp only [pointerdown]
  split_ifs <;> exact ⟨rfl, rfl, rfl, rfl⟩

/-- A pointer-up writes neither the position, the size nor the canvas. -/
theorem pointerup_frame (s : State) (e : PointerEvent) (onCanvas : Bool) :
    (pointerup s e onCanvas).fgPos = s.fgPos ∧ (pointerup s e onCanvas).fgSize = s.fgSize ∧
      (pointerup s e onCanvas).canvasWidth = s.canvasWidth ∧
      (pointerup s e onCanvas).canvasHeight = s.canvasHeight := by
  cases onCanvas <;> simp only [pointerup, releasePointer] <;>
    split_ifs <;> exact ⟨rfl, rfl, rfl, rfl⟩

/-- A pointer-move keeps the width and the height positive. -/
theorem pointermove_size_pos (s : State) (rect : Rect) (e : PointerEvent)
    (hw : 0 < s.fgSize.width) (hh : 0 < s.fgSize.height) :
    0 < (pointermove s rect e).fgSize.width ∧ 0 < (pointermove s rect e).fgSize.height := by
  have h40 : ∀ v : ℚ, (0 : ℚ) < max 40 v := fun v =>
    lt_of_lt_of_le (by norm_num) (le_max_left _ _)
  simp only [pointermove]
  split_ifs with h1 h2 h3 h4 h5 h6
  · exact ⟨hw, hh⟩
  · exact ⟨hw, hh⟩
  · exact ⟨hw, hh⟩
  · have hiw : (0 : ℚ) < (s.fgImg.width : ℚ) := by exact_mod_cast Nat.pos_of_ne_zero h5.1
    have hih : (0 : ℚ) < (s.fgImg.height : ℚ) := by exact_mod_cast Nat.pos_of_ne_zero h5.2
    exact ⟨mul_pos (h40 _) (div_pos hiw hih), h40 _⟩
  · have hiw : (0 : ℚ) < (s.fgImg.width : ℚ) := by exact_mod_cast Nat.pos_of_ne_zero h5.1
    have hih : (0 : ℚ) < (s.fgImg.height : ℚ) := by exact_mod_cast Nat.pos_of_ne_zero h5.2
    exact ⟨h40 _, div_pos (h40 _) (div_pos hiw hih)⟩
  · exact ⟨h40 _, h40 _⟩
  · exact ⟨hw, hh⟩

/-- A foreground load of an image with positive intrinsic dimensions gives a
positive width and height. -/
theorem fgImgOnload_size_pos (s : State) (iw ih : ℕ) (hiw : 0 < iw) (hih : 0 < ih) :
    0 < (fgImgOnload s iw ih).fgSize.width ∧ 0 < (fgImgOnload s iw ih).fgSize.height := by
  have hiwq : (0 : ℚ) < (iw : ℚ) := by exact_mod_cast hiw
  have hihq : (0 : ℚ) < (ih : ℚ) := by exact_mod_cast hih
  have hpos : (0 : ℚ) < min 1 (min 800 (iw : ℚ) / (iw : ℚ)) :=
    lt_min (by norm_num) (div_pos (lt_min (by norm_num) hiwq) hiwq)
  rw [fgImgOnload_fgSize]
  exact ⟨mul_pos hiwq hpos, mul_pos hihq hpos⟩

/-- One event keeps the width and the height positive. -/
theorem step_size_pos (s : State) (ev : Event) (hload : loadIsPositive ev = true)
    (hw : 0 < s.fgSize.width) (hh : 0 < s.fgSize.height) :
    0 < (step s ev).fgSize.width ∧ 0 < (step s ev).fgSize.height := by
  cases ev with
  | pointerdown rect e =>
    simp only [step, (pointerdown_frame s rect e).2.1]
    exact ⟨hw, hh⟩
  | pointermove rect e => exact pointermove_size_pos s rect e hw hh
  | pointerup e onCanvas =>
    simp only [step, (pointerup_frame s e onCanvas).2.1]
    exact ⟨hw, hh⟩
  | applyBg =>
    simp only [step, applyBgClick]
    split_ifs <;> exact ⟨hw, hh⟩
  | unlock => exact ⟨hw, hh⟩
  | assignFg url => exact ⟨hw, hh⟩
  | fgLoaded w h =>
    simp only [loadIsPositive, Bool.and_eq_true, decide_eq_true_eq] at hload
    exact fgImgOnload_size_pos s w h hload.1 hload.2
  | assignBg url => exact ⟨hw, hh⟩
  | bgLoaded w h => exact ⟨hw, hh⟩
  | removeBgImage =>
    simp only [step, removeBgImageClick]
    split_ifs <;> exact ⟨hw, hh⟩
  | bgColor v => exact ⟨hw, hh⟩

/-- A sequence of events keeps the width and the height positive. -/
theorem run_size_pos (evs : List Event) (s : State)
    (hload : ∀ ev ∈ evs, loadIsPositive ev = true)
    (hw : 0 < s.fgSize.width) (hh : 0 < s.fgSize.height) :
    0 < (run s evs).fgSize.width ∧ 0 < (run s evs).fgSize.height := by
  induction evs generalizing s with
  | nil => exact ⟨hw, hh⟩
  | cons ev rest ih =>
    have hstep := step_size_pos s ev (hload ev (List.mem_cons_self _ _)) hw hh
    exact ih (step s ev) (fun ev2 h2 => hload ev2 (List.mem_cons_of_mem _ h2)) hstep.1 hstep.2

/-- C14: in every state reached from the startup state by a sequence of
events (pointer events, Finalize, Unlock, image assignments and loads,
background removal, colour change) whose foreground loads all have positive
intrinsic width and height, the foreground width and height are positive. -/
theorem size_stays_positive (p : Page) (evs : List Event)
    (hload : ∀ ev ∈ evs, loadIsPositive ev = true) :
    0 < (run (startup p) evs).fgSize.width ∧ 0 < (run (startup p) evs).fgSize.height :=
  run_size_pos evs (startup p) hload (by norm_num [startup]) (by norm_num [startup])

/-- Witness for C14: a load, a resize, a release and a Finalize. -/
theorem size_stays_positive_witness :
    0 < (run (startup samplePage) loadResizeFinalize).fgSize.width ∧
      0 < (run (startup samplePage) loadResizeFinalize).fgSize.height :=
  size_stays_positive samplePage loadResizeFinalize (by
    intro ev hev
    simp only [loadResizeFinalize, List.mem_cons, List.mem_singleton, List.not_mem_nil,
      or_false] at hev
    rcases hev with h | h | h | h | h | h <;> subst h <;> simp [loadIsPositive])

/-! ## Drag bound along pointer sequences -/

/-- Counterexample for C15: a resize of the startup foreground from its handle
to `(1500, 1000)` gives size 1440 by 940 at origin `(60, 60)` on the 300 by
150 canvas, and `60 ≤ 300 - 0.2 * 1440` fails. -/
theorem resize_breaks_drag_bound :
    (run (startup samplePage) bigResize).fgPos = { x := 60, y := 60 } ∧
      (run (startup samplePage) bigResize).fgSize = { width := 1440, height := 940 } ∧
      (run (startup samplePage) bigResize).canvasWidth = 300 ∧
      ¬ ((run (startup samplePage) bigResize).fgPos.x ≤
        ((run (startup samplePage) bigResize).canvasWidth : ℚ) -
          (1 / 5) * (run (startup samplePage) bigResize).fgSize.width) := by
  norm_num [bigResize, run, step, pointerdown, pointermove, startup, samplePage, originRect,
    primaryAt, resizeHandleSize, newImage]

/-- A pointer-move that is not handled by the resize branch keeps the drag
bound, the positive size and the canvas. -/
theorem pointermove_keeps_bound (s : State) (rect : Rect) (e : PointerEvent)
    (hbranch : resizeBranch s = false)
    (hw : 0 < s.fgSize.width) (hh : 0 < s.fgSize.height)
    (hcw : 0 ≤ s.canvasWidth) (hch : 0 ≤ s.canvasHeight)
    (hb : -(4 / 5) * s.fgSize.width ≤ s.fgPos.x ∧
      s.fgPos.x ≤ (s.canvasWidth : ℚ) - (1 / 5) * s.fgSize.width ∧
      -(4 / 5) * s.fgSize.height ≤ s.fgPos.y ∧
      s.fgPos.y ≤ (s.canvasHeight : ℚ) - (1 / 5) * s.fgSize.height) :
    (pointermove s rect e).fgSize = s.fgSize ∧
    (pointermove s rect e).canvasWidth = s.canvasWidth ∧
    (pointermove s rect e).canvasHeight = s.canvasHeight ∧
    -(4 / 5) * s.fgSize.width ≤ (pointermove s rect e).fgPos.x ∧
    (pointermove s rect e).fgPos.x ≤ (s.canvasWidth : ℚ) - (1 / 5) * s.fgSize.width ∧
    -(4 / 5) * s.fgSize.height ≤ (pointermove s rect e).fgPos.y ∧
    (pointermove s rect e).fgPos.y ≤ (s.canvasHeight : ℚ) - (1 / 5) * s.fgSize.height := by
  have hcwq : (0 : ℚ) ≤ (s.canvasWidth : ℚ) := by exact_mod_cast hcw
  have hchq : (0 : ℚ) ≤ (s.canvasHeight : ℚ) := by exact_mod_cast hch
  cases hf : s.isFinalized
  · cases hd : s.dragging
    · cases hr : s.resizing
      · have hsame : pointermove s rect e = s := by simp [pointermove, hf, hd, hr]
        rw [hsame]
        exact ⟨rfl, rfl, rfl, hb⟩
      · simp [resizeBranch, hf, hd, hr] at hbranch
    · rw [pointermove_dragging s rect e hd hf]
      have bx := clamp_bounds (-s.fgSize.width * (4 / 5))
        ((s.canvasWidth : ℚ) - s.fgSize.width * (1 / 5))
        (e.clientX - rect.left - s.dragOffset.x) (by linarith)
      have bY := clamp_bounds (-s.fgSize.height * (4 / 5))
        ((s.canvasHeight : ℚ) - s.fgSize.height * (1 / 5))
        (e.clientY - rect.top - s.dragOffset.y) (by linarith)
      refine ⟨rfl, rfl, rfl, ?_, ?_, ?_, ?_⟩
      · have := bx.1; simp only; linarith
      · have := bx.2; simp only; linarith
      · have := bY.1; simp only; linarith
      · have := bY.2; simp only; linarith
  · have hsame : pointermove s rect e = s := by simp [pointermove, hf]
    rw [hsame]
    exact ⟨rfl, rfl, rfl, hb⟩

/-- The drag bound, the positive size and the non-negative canvas are kept
along a sequence of pointer events none of whose pointer-moves is handled by
the resize branch. -/
theorem run_keeps_bound (evs : List Event) (s : State)
    (hptr : ∀ ev ∈ evs, isPointerEvent ev = true) (hnr : noResizeMove s evs = true)
    (hw : 0 < s.fgSize.width) (hh : 0 < s.fgSize.height)
    (hcw : 0 ≤ s.canvasWidth) (hch : 0 ≤ s.canvasHeight)
    (hb : -(4 / 5) * s.fgSize.width ≤ s.fgPos.x ∧
      s.fgPos.x ≤ (s.canvasWidth : ℚ) - (1 / 5) * s.fgSize.width ∧
      -(4 / 5) * s.fgSize.height ≤ s.fgPos.y ∧
      s.fgPos.y ≤ (s.canvasHeight : ℚ) - (1 / 5) * s.fgSize.height) :
    -(4 / 5) * (run s evs).fgSize.width ≤ (run s evs).fgPos.x ∧
    (run s evs).fgPos.x ≤ ((run s evs).canvasWidth : ℚ) - (1 / 5) * (run s evs).fgSize.width ∧
    -(4 / 5) * (run s evs).fgSize.height ≤ (run s evs).fgPos.y ∧
    (run s evs).fgPos.y ≤
      ((run s evs).canvasHeight : ℚ) - (1 / 5) * (run s evs).fgSize.height := by
  induction evs generalizing s with
  | nil => exact hb
  | cons ev rest ih =>
    have hrun : run s (ev :: rest) = run (step s ev) rest := rfl
    have hrest : ∀ ev2 ∈ rest, isPointerEvent ev2 = true :=
      fun ev2 h2 => hptr ev2 (List.mem_cons_of_mem _ h2)
    have hev := hptr ev (List.mem_cons_self _ _)
    rw [hrun]
    cases ev with
    | pointerdown rect e =>
      obtain ⟨h1, h2, h3, h4⟩ := pointerdown_frame s rect e
      refine ih (step s (.pointerdown rect e)) hrest hnr ?_ ?_ ?_ ?_ ?_
      · simp only [step, h2]; exact hw
      · simp only [step, h2]; exact hh
      · simp only [step, h3]; exact hcw
      · simp only [step, h4]; exact hch
      · simp only [step, h1, h2, h3, h4]; exact hb
    | pointermove rect e =>
      simp only [noResizeMove, Bool.and_eq_true, Bool.not_eq_true'] at hnr
      obtain ⟨h2, h3, h4, hb2⟩ := pointermove_keeps_bound s rect e hnr.1 hw hh hcw hch hb
      refine ih (step s (.pointermove rect e)) hrest hnr.2 ?_ ?_ ?_ ?_ ?_
      · simp only [step, h2]; exact hw
      · simp only [step, h2]; exact hh
      · simp only [step, h3]; exact hcw
      · simp only [step, h4]; exact hch
      · simp only [step, h2, h3, h4]; exact hb2
    | pointerup e onCanvas =>
      obtain ⟨h1, h2, h3, h4⟩ := pointerup_frame s e onCanvas
      refine ih (step s (.pointerup e onCanvas)) hrest hnr ?_ ?_ ?_ ?_ ?_
      · simp only [step, h2]; exact hw
      · simp only [step, h2]; exact hh
      · simp only [step, h3]; exact hcw
      · simp only [step, h4]; exact hch
      · simp only [step, h1, h2, h3, h4]; exact hb
    | applyBg => simp [isPointerEvent] at hev
    | unlock => simp [isPointerEvent] at hev
    | assignFg url => simp [isPointerEvent] at hev
    | fgLoaded w h => simp [isPointerEvent] at hev
    | assignBg url => simp [isPointerEvent] at hev
    | bgLoaded w h => simp [isPointerEvent] at hev
    | removeBgImage => simp [isPointerEvent] at hev
    | bgColor v => simp [isPointerEvent] at hev

/-- C15, amended: on a page whose canvas is at least 100 by 100, in every
state reached from the startup state by a sequence of pointer-down,
pointer-move and pointer-up events none of whose pointer-moves is handled by
the resize branch, `-0.8 w ≤ x ≤ surfaceW - 0.2 w` and
`-0.8 h ≤ y ≤ surfaceH - 0.2 h`. -/
theorem drag_bound_without_resize (p : Page) (evs : List Event)
    (hcw : 100 ≤ p.canvasWidth) (hch : 100 ≤ p.canvasHeight)
    (hptr : ∀ ev ∈ evs, isPointerEvent ev = true)
    (hnr : noResizeMove (startup p) evs = true) :
    -(4 / 5) * (run (startup p) evs).fgSize.width ≤ (run (startup p) evs).fgPos.x ∧
    (run (startup p) evs).fgPos.x ≤
      ((run (startup p) evs).canvasWidth : ℚ) - (1 / 5) * (run (startup p) evs).fgSize.width ∧
    -(4 / 5) * (run (startup p) evs).fgSize.height ≤ (run (startup p) evs).fgPos.y ∧
    (run (startup p) evs).fgPos.y ≤
      ((run (startup p) evs).canvasHeight : ℚ) -
        (1 / 5) * (run (startup p) evs).fgSize.height := by
  have hcwq : (100 : ℚ) ≤ (p.canvasWidth : ℚ) := by exact_mod_cast hcw
  have hchq : (100 : ℚ) ≤ (p.canvasHeight : ℚ) := by exact_mod_cast hch
  refine run_keeps_bound evs (startup p) hptr hnr (by norm_num [startup])
    (by norm_num [startup]) (by simp only [startup]; omega) (by simp only [startup]; omega) ?_
  simp only [startup]
  refine ⟨by norm_num, by linarith, by norm_num, by linarith⟩

/-- Witness for C15: a drag of the startup foreground far away, then its
release. -/
theorem drag_bound_without_resize_witness :
    (run (startup samplePage) farDrag).fgPos.x ≤
      ((run (startup samplePage) farDrag).canvasWidth : ℚ) -
        (1 / 5) * (run (startup samplePage) farDrag).fgSize.width :=
  (drag_bound_without_resize samplePage farDrag (by norm_num [samplePage])
    (by norm_num [samplePage])
    (by
      intro ev hev
      simp only [farDrag, List.mem_cons, List.mem_singleton, List.not_mem_nil, or_false] at hev
      rcases hev with h | h | h <;> subst h <;> rfl)
    (by
      norm_num [farDrag, noResizeMove, resizeBranch, step, pointerdown, pointermove, startup,
        samplePage, originRect, primaryAt, resizeHandleSize])).2.1

/-! ## Resize handle in the frame -/

/-- C20: the frame of `drawCanvas` contains the fill and the stroke of the
handle square when and only when the foreground image has a source, is
decoded, and the scene is not locked; every stroked rectangle of a frame is
the square with top-left `(x + width - 16, y + height - 16)` and edge 16; when
drawn, the handle commands close the frame; and on an unlocked scene a
primary-button pointer-down sets `resizing` exactly on that closed square. -/
theorem handle_drawn_iff_unlocked (s : State) :
    ((DrawCmd.fillRect (s.fgPos.x + s.fgSize.width - 16) (s.fgPos.y + s.fgSize.height - 16)
          16 16 ∈ drawCanvas s ∧
        DrawCmd.strokeRect (s.fgPos.x + s.fgSize.width - 16) (s.fgPos.y + s.fgSize.height - 16)
          16 16 ∈ drawCanvas s) ↔
      (s.fgImg.src ≠ "" ∧ s.fgImg.complete = true ∧ s.isFinalized = false)) ∧
    (∀ x y w h : ℚ, DrawCmd.strokeRect x y w h ∈ drawCanvas s →
      x = s.fgPos.x + s.fgSize.width - 16 ∧ y = s.fgPos.y + s.fgSize.height - 16 ∧
        w = 16 ∧ h = 16) ∧
    ((s.fgImg.src ≠ "" ∧ s.fgImg.complete = true ∧ s.isFinalized = false) →
      [DrawCmd.fillStyle "#007bff",
        DrawCmd.fillRect (s.fgPos.x + s.fgSize.width - 16) (s.fgPos.y + s.fgSize.height - 16)
          16 16,
        DrawCmd.strokeStyle "#ffffff",
        DrawCmd.lineWidth 2,
        DrawCmd.strokeRect (s.fgPos.x + s.fgSize.width - 16) (s.fgPos.y + s.fgSize.height - 16)
          16 16] <:+ drawCanvas s) ∧
    (∀ (rect : Rect) (e : PointerEvent), s.isFinalized = false → s.resizing = false →
      e.button = 0 →
      ((pointerdown s rect e).resizing = true ↔
        (s.fgPos.x + s.fgSize.width - 16 ≤ e.clientX - rect.left ∧
          e.clientX - rect.left ≤ s.fgPos.x + s.fgSize.width - 16 + 16 ∧
          s.fgPos.y + s.fgSize.height - 16 ≤ e.clientY - rect.top ∧
          e.clientY - rect.top ≤ s.fgPos.y + s.fgSize.height - 16 + 16))) := by
  refine ⟨?_, ?_, ?_, ?_⟩
  · by_cases hfg : s.fgImg.src ≠ "" ∧ s.fgImg.complete = true
    · cases hf : s.isFinalized
      · by_cases hbg : s.bgImg.src ≠ "" ∧ s.bgImg.complete = true <;>
          simp [drawCanvas, hfg, hf, hbg, resizeHandleSize]
      · by_cases hbg : s.bgImg.src ≠ "" ∧ s.bgImg.complete = true <;>
          simp [drawCanvas, hfg, hf, hbg, resizeHandleSize]
    · by_cases hbg : s.bgImg.src ≠ "" ∧ s.bgImg.complete = true
      · simp [drawCanvas, hfg, hbg]
        tauto
      · simp [drawCanvas, hfg, hbg]
        tauto
  · intro x y w h hmem
    by_cases hfg : s.fgImg.src ≠ "" ∧ s.fgImg.complete = true
    · cases hf : s.isFinalized
      · by_cases hbg : s.bgImg.src ≠ "" ∧ s.bgImg.complete = true <;>
          simpa [drawCanvas, hfg, hf, hbg, resizeHandleSize] using hmem
      · by_cases hbg : s.bgImg.src ≠ "" ∧ s.bgImg.complete = true <;>
          simp [drawCanvas, hfg, hf, hbg] at hmem
    · by_cases hbg : s.bgImg.src ≠ "" ∧ s.bgImg.complete = true <;>
        simp [drawCanvas, hfg, hbg] at hmem
  · rintro ⟨h1, h2, h3⟩
    have hfg : s.fgImg.src ≠ "" ∧ s.fgImg.complete = true := ⟨h1, h2⟩
    simp only [drawCanvas, if_pos hfg, h3, Bool.not_false, if_true, resizeHandleSize]
    rw [← List.append_assoc]
    exact List.suffix_append _ _
  · intro rect e hlock hres hbtn
    rw [pointerdown_unlocked s rect e hlock hbtn, sub_add_cancel, sub_add_cancel]
    split_ifs with h1 h2
    · exact ⟨fun _ => h1, fun _ => rfl⟩
    · constructor
      · intro h
        simp [hres] at h
      · intro h
        exact absurd h h1
    · constructor
      · intro h
        simp [hres] at h
      · intro h
        exact absurd h h1

/-- Witness for C20: on the unlocked scene `{x: 100, y: 100, w: 200, h: 200}`
the frame strokes the square at `(284, 284)` with edge 16, and a pointer-down
on its corner `(284, 284)` sets `resizing`. -/
theorem handle_drawn_iff_unlocked_witness :
    DrawCmd.strokeRect 284 284 16 16 ∈ drawCanvas squareScene ∧
      (pointerdown squareScene originRect (primaryAt 284 284)).resizing = true := by
  have h := handle_drawn_iff_unlocked squareScene
  have hcond : squareScene.fgImg.src ≠ "" ∧ squareScene.fgImg.complete = true ∧
      squareScene.isFinalized = false := by
    rw [squareScene_eq]
    simp
  have hx : squareScene.fgPos.x + squareScene.fgSize.width - 16 = 284 := by
    rw [squareScene_eq]
    norm_num
  have hy : squareScene.fgPos.y + squareScene.fgSize.height - 16 = 284 := by
    rw [squareScene_eq]
    norm_num
  have hm := (h.1.mpr hcond).2
  have hp := (h.2.2.2 originRect (primaryAt 284 284) (by rw [squareScene_eq])
    (by rw [squareScene_eq]) rfl).mpr (by rw [hx, hy]; norm_num [originRect, primaryAt])
  rw [hx, hy] at hm
  exact ⟨hm, hp⟩

/-! ## Rounding of doubles -/

/-- A rational less than one half away from an integer rounds to it. -/
theorem roundHalfEven_of_near (x : ℚ) (m : ℤ) (h1 : (m : ℚ) - 1 / 2 < x)
    (h2 : x < (m : ℚ) + 1 / 2) : roundHalfEven x = m := by
  rcases le_or_lt (m : ℚ) x with h | h
  · have hfl : ⌊x⌋ = m := by
      rw [Int.floor_eq_iff]
      exact ⟨h, by linarith⟩
    simp only [roundHalfEven, hfl]
    rw [if_pos (by linarith)]
  · have hfl : ⌊x⌋ = m - 1 := by
      rw [Int.floor_eq_iff]
      push_cast
      exact ⟨by linarith, by linarith⟩
    simp only [roundHalfEven, hfl]
    push_cast
    rw [if_neg (by linarith), if_pos (by linarith)]
    ring

/-- The double nearest to a rational `q` with `2 ^ k ≤ q < 2 ^ (k + 1)` that is
less than half a unit in the last place away from `m * 2 ^ (k - 52)`. -/
theorem toDouble_of_near (q : ℚ) (k m : ℤ) (hlo : (2 : ℚ) ^ k ≤ q)
    (hhi : q < (2 : ℚ) ^ (k + 1))
    (h1 : (m : ℚ) - 1 / 2 < q / (2 : ℚ) ^ (k - 52))
    (h2 : q / (2 : ℚ) ^ (k - 52) < (m : ℚ) + 1 / 2) :
    toDouble q = (m : ℚ) * (2 : ℚ) ^ (k - 52) := by
  have hpos : (0 : ℚ) < q := lt_of_lt_of_le (zpow_pos (by norm_num) k) hlo
  have hlog : Int.log 2 |q| = k := by
    rw [abs_of_pos hpos]
    apply le_antisymm
    · have := (Int.lt_zpow_iff_log_lt (b := 2) (by norm_num) hpos (x := k + 1)).mp
        (by exact_mod_cast hhi)
      omega
    · exact (Int.zpow_le_iff_le_log (b := 2) (by norm_num) hpos).mp (by exact_mod_cast hlo)
  simp only [toDouble, hlog, if_neg hpos.ne', roundHalfEven_of_near _ m h1 h2]
/-- The fields of `tallScene`, evaluated. -/
theorem tallScene_eq : tallScene =
    { fgImg := { src := "blob:fg", complete := true, width := 100, height := 199 }
      bgImg := newImage
      fgPos := { x := 40, y := 40 }
      fgSize := { width := 100, height := 199 }
      dragging := false
      resizing := true
      dragOffset := { x := 0, y := 0 }
      isFinalized := false
      canvasWidth := 300
      canvasHeight := 319
      bgColor := "#ffffff"
      unlockBtnDisplay := "none" } := by
  norm_num [tallScene, run, step, assignFgImg, fgImgOnload, resetCanvasSize,
    setCanvasDimension, mathRound, pointerdown, startup, samplePage, originRect, primaryAt,
    resizeHandleSize]

/-- The doubles of the 1060 by 500 load: the scale `800 / 1060` and the two
products. -/
theorem toDouble_scale_1060 :
    toDouble (800 / 1060) = 6797886229993202 / 2 ^ 53 ∧
    toDouble (1060 * (6797886229993202 / 2 ^ 53)) = 800 + 1 / 2 ^ 43 ∧
    toDouble (500 * (6797886229993202 / 2 ^ 53)) = 6638560771477736 / 2 ^ 44 := by
  refine ⟨?_, ?_, ?_⟩
  · rw [toDouble_of_near (800 / 1060) (-1) 6797886229993202 (by norm_num) (by norm_num)
      (by norm_num) (by norm_num)]
    norm_num
  · rw [toDouble_of_near (1060 * (6797886229993202 / 2 ^ 53)) 9 7036874417766401 (by norm_num)
      (by norm_num) (by norm_num) (by norm_num)]
    norm_num
  · rw [toDouble_of_near (500 * (6797886229993202 / 2 ^ 53)) 8 6638560771477736 (by norm_num)
      (by norm_num) (by norm_num) (by norm_num)]
    norm_num

/-- Counterexample for C12: in the script's double arithmetic a 1060 by 500
image is loaded with width `800 + 2^-43` (printed 800.0000000000001), which
is neither `min iw 800` nor at most 800. -/
theorem fgImgOnload_double_exceeds_cap :
    (fgImgOnloadDouble (startup samplePage) 1060 500).fgSize.width = 800 + 1 / 2 ^ 43 ∧
      (fgImgOnloadDouble (startup samplePage) 1060 500).fgSize.width ≠
        min ((1060 : ℕ) : ℚ) 800 ∧
      ¬ ((fgImgOnloadDouble (startup samplePage) 1060 500).fgSize.width ≤ 800) := by
  obtain ⟨h1, h2, -⟩ := toDouble_scale_1060
  have hw : (fgImgOnloadDouble (startup samplePage) 1060 500).fgSize.width =
      800 + 1 / 2 ^ 43 := by
    have harg : min (800 : ℚ) ((1060 : ℕ) : ℚ) / ((1060 : ℕ) : ℚ) = 800 / 1060 := by
      norm_num
    show toDouble (((1060 : ℕ) : ℚ) *
      min 1 (toDouble (min (800 : ℚ) ((1060 : ℕ) : ℚ) / ((1060 : ℕ) : ℚ)))) = _
    rw [harg, h1]
    have hmin : ((1060 : ℕ) : ℚ) * min 1 (6797886229993202 / 2 ^ 53) =
        1060 * (6797886229993202 / 2 ^ 53) := by norm_num
    rw [hmin, h2]
  rw [hw]
  norm_num
/-- The doubles of the resize of the 100 by 199 scene: the pointer
coordinates, the candidates, the aspect and the quotient. -/
theorem toDouble_resize_tall :
    toDouble 240 = 240 ∧ toDouble 438 = 438 ∧ toDouble 200 = 200 ∧ toDouble 398 = 398 ∧
    toDouble (100 / 199) = 4526230781276880 / 2 ^ 53 ∧
    toDouble (200 / 398) = 4526230781276880 / 2 ^ 53 ∧
    toDouble (200 / (4526230781276880 / 2 ^ 53)) = 398 + 1 / 2 ^ 44 := by
  refine ⟨?_, ?_, ?_, ?_, ?_, ?_, ?_⟩
  · rw [toDouble_of_near 240 7 (240 * 2 ^ 45) (by norm_num) (by norm_num) (by norm_num)
      (by norm_num)]
    norm_num
  · rw [toDouble_of_near 438 8 (438 * 2 ^ 44) (by norm_num) (by norm_num) (by norm_num)
      (by norm_num)]
    norm_num
  · rw [toDouble_of_near 200 7 (200 * 2 ^ 45) (by norm_num) (by norm_num) (by norm_num)
      (by norm_num)]
    norm_num
  · rw [toDouble_of_near 398 8 (398 * 2 ^ 44) (by norm_num) (by norm_num) (by norm_num)
      (by norm_num)]
    norm_num
  · rw [toDouble_of_near (100 / 199) (-1) 4526230781276880 (by norm_num) (by norm_num)
      (by norm_num) (by norm_num)]
    norm_num
  · rw [toDouble_of_near (200 / 398) (-1) 4526230781276880 (by norm_num) (by norm_num)
      (by norm_num) (by norm_num)]
    norm_num
  · rw [toDouble_of_near (200 / (4526230781276880 / 2 ^ 53)) 8 7001690045677569 (by norm_num)
      (by norm_num) (by norm_num) (by norm_num)]
    norm_num

/-- Counterexample for C11: in the script's double arithmetic, on the 100 by
199 scene in mode Resizing a pointer-move to `(240, 438)` has candidates 200
and 398 and stores height `398 + 2^-44` (printed 398.00000000000006), above
its candidate. -/
theorem resize_double_exceeds_candidate :
    isResizing tallScene = true ∧ tallScene.isFinalized = false ∧
      max 40 (240 - 0 - tallScene.fgPos.x) = 200 ∧
      max 40 (438 - 0 - tallScene.fgPos.y) = 398 ∧
      (pointermoveDouble tallScene originRect (primaryAt 240 438)).fgSize =
        { width := 200, height := 398 + 1 / 2 ^ 44 } ∧
      ¬ ((pointermoveDouble tallScene originRect (primaryAt 240 438)).fgSize.height ≤ 398) := by
  obtain ⟨h240, h438, h200, h398, ha, hq, hh⟩ := toDouble_resize_tall
  have hmove : (pointermoveDouble tallScene originRect (primaryAt 240 438)).fgSize =
      { width := 200, height := 398 + 1 / 2 ^ 44 } := by
    rw [tallScene_eq]
    norm_num [pointermoveDouble, originRect, primaryAt, h240, h438, h200, h398, ha, hq, hh]
    rw [show (22517998136852480 / 56577884765961 : ℚ) = 200 / (4526230781276880 / 2 ^ 53) by
      norm_num, hh]
    norm_num
  rw [hmove]
  rw [tallScene_eq]
  norm_num [isResizing]

end BackgroundChanger
